import Mathlib

/-!
# p5.serialportWebUSB: a shallow embedding of `lib/p5.serialportwebusb.js`

The session object `p5.SerialPort` is a record; every method is a function
that takes the session and returns the new session together with what the
method returned.  Asynchronous methods additionally return the ordered
trace of host calls, callback invocations and console lines they made and
whether they ended normally or by a thrown error.

Conventions of the embedding:

* a JavaScript string is the list of its UTF-16 code units;
* a JavaScript number that the code treats as an integer is an `Int`
  (array indices, `-1` sentinels) or a `Nat` (bytes, endpoint numbers);
* a callback is named by an identifier; what a callback does to the session
  when it is invoked is given by an environment `Env`, so that callbacks
  may call any accessor of the session.  Callbacks return normally;
* the host (`navigator.usb` and the `USBDevice` object) is a parameter:
  `Host` says which calls are rejected and with which error.
-/

namespace P5

/-! ## JavaScript primitives used by the library -/

/-- A JavaScript string, as the list of its UTF-16 code units. -/
abbrev JSString := List Nat

/-- The JavaScript string of an ASCII literal of the source. -/
def lit (s : String) : JSString := s.toList.map Char.toNat

/-- The call `String.fromCharCode(n)`: the one-unit string of `n` taken as a 16-bit unit. -/
def fromCharCode (n : Nat) : JSString := [n % 65536]

/-- The call `s.charCodeAt(i)`; `none` stands for `NaN` (index out of range). -/
def charCodeAt (s : JSString) (i : Nat) : Option Nat := s.get? i

/-- The call `s.indexOf(m)` on strings: the least position at which `m` starts, or `-1`. -/
def stringIndexOf : JSString → JSString → Int
  | [], m => if m.isPrefixOf [] then 0 else -1
  | c :: s, m =>
    if m.isPrefixOf (c :: s) then 0
    else
      let r := stringIndexOf s m
      if r = -1 then -1 else r + 1

/-- The call `xs.indexOf(x)` on arrays of numbers (strict equality): the least index
holding `x`, or `-1`.  `NaN` (here `none`) is equal to nothing. -/
def arrayIndexOf : List Nat → Option Nat → Int
  | _, none => -1
  | [], some _ => -1
  | y :: ys, some x =>
    if y = x then 0
    else
      let r := arrayIndexOf ys (some x)
      if r = -1 then -1 else r + 1

/-- The clamping of a relative index done by `Array.prototype.slice`:
a negative index counts from the end, and the result lies in `0..len`. -/
def sliceIndex (len : Nat) (i : Int) : Nat :=
  if i < 0 then ((len : Int) + i).toNat else min i.toNat len

/-- The call `xs.slice(start, stop)`. -/
def slice {α : Type} (xs : List α) (start stop : Int) : List α :=
  (xs.take (sliceIndex xs.length stop)).drop (sliceIndex xs.length start)

/-- The call `xs.slice(start)`: the second index defaults to the length. -/
def sliceFrom {α : Type} (xs : List α) (start : Int) : List α :=
  slice xs start xs.length

/-- The call `s.substr(0, n)` for `n ≥ 0`. -/
def substr0 (s : JSString) (n : Int) : JSString := s.take n.toNat

/-- The conversion `ToUint32`: the 32-bit pattern of an integer. -/
def toUint32 (x : Int) : Nat := (x % 4294967296).toNat

/-- The conversion `ToInt32`: the signed reading of the 32-bit pattern of an integer. -/
def toInt32 (x : Int) : Int :=
  let m := x % 4294967296
  if m ≥ 2147483648 then m - 4294967296 else m

/-- The operator `x >> k`: sign-propagating right shift of the 32-bit signed value. -/
def jsShr (x : Int) (k : Nat) : Int := (toInt32 x) >>> (k % 32)

/-- The operator `x & y`: bitwise and of the two 32-bit patterns, read back as signed. -/
def jsAnd (x y : Int) : Int := toInt32 ((toUint32 x &&& toUint32 y : Nat) : Int)

/-- The conversion of a number stored into a `Uint8Array` (`ToUint8`). -/
def toUint8 (x : Int) : Nat := (x % 256).toNat

/-! ## Data model -/

/-- An acceptance filter `{vendorId, productId?}`. -/
structure Filter where
  vendorId : Int
  productId : Option Int
  deriving DecidableEq, Repr

/-- A `USBEndpoint` descriptor, as far as the library reads it. -/
structure Endpoint where
  direction : String
  endpointNumber : Nat
  deriving DecidableEq, Repr

/-- A `USBAlternateInterface` descriptor. -/
structure Alternate where
  interfaceClass : Nat
  endpoints : List Endpoint
  deriving DecidableEq, Repr

/-- A `USBInterface` descriptor. -/
structure Interface where
  interfaceNumber : Nat
  alternates : List Alternate
  deriving DecidableEq, Repr

/-- A `USBConfiguration` descriptor. -/
structure Configuration where
  configurationValue : Nat
  interfaces : List Interface
  deriving DecidableEq, Repr

/-- The `USBDevice` object held in `this.device`: the attributes the library
reads (`opened`, `configuration`) and the configurations the device offers. -/
structure Device where
  opened : Bool
  configuration : Option Configuration
  configurations : List Configuration
  deriving DecidableEq, Repr

/-- An error object: only its `message` is inspected by the library. -/
structure JSError where
  name : String
  message : JSString
  deriving DecidableEq, Repr

/-- The `TypeError` of reading a property of `null`. -/
def typeError : JSError := ⟨"TypeError", lit "Cannot read properties of null"⟩

/-- A callback function, named by an identifier. -/
abbrev Callback := Nat

/-- The session object created by `new p5.SerialPort(vid, pid)`.
A callback slot that was never assigned is `undefined`, here `none`. -/
structure SerialPort where
  bufferSize : Nat
  serialBuffer : List Nat
  serialConnected : Bool
  device : Option Device
  interfaceNumber : Nat
  endpointIn : Nat
  endpointOut : Nat
  filters : List Filter
  openCallback : Option Callback
  dataCallback : Option Callback
  closeCallback : Option Callback
  errorCallback : Option Callback
  listCallback : Option Callback
  connectedCallback : Option Callback
  rawDataCallback : Option Callback
  deriving DecidableEq, Repr

/-- The argument a callback is invoked with. -/
inductive Arg where
  | none
  | error (e : JSError)
  | byte (element : Nat)
  deriving DecidableEq, Repr

/-- The meaning of the callbacks: what invoking callback `f` with argument
`a` does to the session. -/
structure Env where
  run : Callback → Arg → SerialPort → SerialPort

/-- The callback slot an invocation came from. -/
inductive Slot where
  | open_ | data | close | error | list | connected | rawdata
  deriving DecidableEq, Repr

/-- The bytes handed to `transferOut`; `none` is `null`. -/
abbrev Payload := Option (List Nat)

/-- A call made to the host, with its arguments. -/
inductive HostCall where
  | getDevices
  | requestDevice (filters : List Filter)
  | deviceOpen
  | selectConfiguration (configurationValue : Nat)
  | claimInterface (interfaceNumber : Nat)
  | selectAlternateInterface (interfaceNumber alternateSetting : Nat)
  | controlTransferOut (requestType recipient : String) (request value index : Nat)
      (data : Option (List Nat))
  | transferIn (endpointNumber length : Nat)
  | transferOut (endpointNumber : Nat) (data : Payload)
  | deviceClose
  deriving DecidableEq, Repr

/-- What a `console.log` line printed. -/
inductive LogLine where
  | text (s : JSString)
  | error (e : JSError)
  deriving DecidableEq, Repr

/-- One observable step of an asynchronous method. -/
inductive Event where
  | host (c : HostCall)
  | callback (slot : Slot) (f : Callback) (a : Arg)
  | log (l : LogLine)
  deriving DecidableEq, Repr

/-- How an asynchronous method ended: its promise resolved, or it was
rejected by an error thrown inside it. -/
inductive Outcome where
  | resolved
  | rejected (e : JSError)
  deriving DecidableEq, Repr

/-- The result of running an asynchronous method. -/
structure Run where
  session : SerialPort
  trace : List Event
  outcome : Outcome

/-- The host as seen by the library: the answer of `getDevices`, the answer
of `requestDevice` for a filter list, and for every call on the device the
error it is rejected with, if it is rejected. -/
structure Host where
  getDevices : Except JSError (List Device)
  requestDevice : List Filter → Except JSError Device
  rejects : HostCall → Option JSError

/-- The value a sentinel-returning accessor returns: a value or `-1`. -/
inductive Ret (α : Type) where
  | value (a : α)
  | minusOne
  deriving DecidableEq, Repr

/-! ## The constructor -/

/-- A JavaScript value passed where a number is expected. -/
inductive JSValue where
  | undefined
  | number (n : Int)
  | other
  deriving DecidableEq, Repr

/-- The table `this.filters` is initialised with. -/
def defaultFilters : List Filter :=
  [ ⟨0x2341, some 0x8036⟩, ⟨0x2341, some 0x8037⟩, ⟨0x2341, some 0x804d⟩,
    ⟨0x2341, some 0x804e⟩, ⟨0x2341, some 0x804f⟩, ⟨0x2341, some 0x8050⟩,
    ⟨0x2341, some 0x8052⟩, ⟨0x2341, some 0x8053⟩, ⟨0x2341, some 0x8054⟩,
    ⟨0x2341, some 0x8055⟩, ⟨0x2341, some 0x8056⟩, ⟨0x2341, some 0x8057⟩,
    ⟨0x239A, none⟩, ⟨0x1781, some 0x0c9f⟩ ]

/-- The constructor `p5.SerialPort = function (_vid, _pid)`. -/
def SerialPort.new (_vid _pid : JSValue) : SerialPort :=
  let filters :=
    match _pid, _vid with
    | .number pid, .number vid => defaultFilters ++ [⟨vid, some pid⟩]
    | _, _ => defaultFilters
  { bufferSize := 1
    serialBuffer := []
    serialConnected := false
    device := none
    interfaceNumber := 2
    endpointIn := 5
    endpointOut := 4
    filters := filters
    openCallback := none
    dataCallback := none
    closeCallback := none
    errorCallback := none
    listCallback := none
    connectedCallback := none
    rawDataCallback := none }

/-! ## Buffer accessors -/

/-- The method `read`: `shift()` the oldest byte, or `-1` on an empty buffer. -/
def SerialPort.read (this : SerialPort) : Int × SerialPort :=
  match this.serialBuffer with
  | b :: rest => ((b : Int), { this with serialBuffer := rest })
  | [] => (-1, this)

/-- The method `readBytes`: a copy of the buffer, which is then emptied, or
`-1` on an empty buffer. -/
def SerialPort.readBytes (this : SerialPort) : Ret (List Nat) × SerialPort :=
  if this.serialBuffer.length > 0 then
    let returnBuffer := slice this.serialBuffer 0 this.serialBuffer.length
    (.value returnBuffer, { this with serialBuffer := [] })
  else
    (.minusOne, this)

/-- The method `readBytesUntil(charToFind)`.  The console line it prints
first does not touch the session and is left out. -/
def SerialPort.readBytesUntil (this : SerialPort) (charToFind : JSString) :
    Ret (List Nat) × SerialPort :=
  let index := arrayIndexOf this.serialBuffer (charCodeAt charToFind 0)
  if index ≠ -1 then
    let returnBuffer := slice this.serialBuffer 0 (index + 1)
    (.value returnBuffer,
      { this with
        serialBuffer := slice this.serialBuffer index (this.serialBuffer.length + index) })
  else
    (.minusOne, this)

/-- The loop shared by `readString` and `readStringUntil`: every byte of the
buffer through `String.fromCharCode`, joined. -/
def decodeBuffer (serialBuffer : List Nat) : JSString :=
  (serialBuffer.map fromCharCode).flatten

/-- The method `readString`. -/
def SerialPort.readString (this : SerialPort) : JSString × SerialPort :=
  (decodeBuffer this.serialBuffer, { this with serialBuffer := [] })

/-- The method `readStringUntil(stringToFind)`. -/
def SerialPort.readStringUntil (this : SerialPort) (stringToFind : JSString) :
    JSString × SerialPort :=
  let stringBuffer := decodeBuffer this.serialBuffer
  let foundIndex := stringIndexOf stringBuffer stringToFind
  if foundIndex > -1 then
    (substr0 stringBuffer foundIndex,
      { this with
        serialBuffer := sliceFrom this.serialBuffer (foundIndex + stringToFind.length) })
  else
    (lit "", this)

/-- The method `readLine`. -/
def SerialPort.readLine (this : SerialPort) : JSString × SerialPort :=
  this.readStringUntil (lit "\n")

/-- The method `available`. -/
def SerialPort.available (this : SerialPort) : Nat := this.serialBuffer.length

/-- The method `readChar`: the oldest byte through `String.fromCharCode`, or
`-1` on an empty buffer. -/
def SerialPort.readChar (this : SerialPort) : Ret JSString × SerialPort :=
  match this.serialBuffer with
  | b :: rest => (.value (fromCharCode b), { this with serialBuffer := rest })
  | [] => (.minusOne, this)

/-- The method `last`: the value of `pop()`, which is `undefined` (here
`none`) on an empty buffer; the buffer is then emptied. -/
def SerialPort.last (this : SerialPort) : Option Nat × SerialPort :=
  let last := this.serialBuffer.getLast?
  (last, { this with serialBuffer := [] })

/-- The method `lastChar`: `String.fromCharCode(this.last())`, where
`String.fromCharCode(undefined)` is the character of code 0. -/
def SerialPort.lastChar (this : SerialPort) : JSString × SerialPort :=
  let r := this.last
  match r.1 with
  | some b => (fromCharCode b, r.2)
  | none => (fromCharCode 0, r.2)

/-- The method `clear`. -/
def SerialPort.clear (this : SerialPort) : SerialPort :=
  { this with serialBuffer := [] }

/-! ## Callbacks, traces and the read loop -/

/-- Invoking callback `f` from slot `slot` with argument `a`. -/
def fire (env : Env) (slot : Slot) (f : Callback) (a : Arg) (this : SerialPort) :
    SerialPort × List Event :=
  (env.run f a this, [Event.callback slot f a])

/-- The recurring statement
`if (typeof this.errorCallback !== "undefined") this.errorCallback(error)`. -/
def reportError (env : Env) (this : SerialPort) (error : JSError) :
    SerialPort × List Event :=
  match this.errorCallback with
  | some f => fire env .error f (.error error) this
  | none => (this, [])

/-- The body of `dataUint8.forEach(element => ...)` in `readLoop`, for one
received byte. -/
def readLoopElement (env : Env) (this : SerialPort) (element : Nat) :
    SerialPort × List Event :=
  let s1 := { this with serialBuffer := this.serialBuffer ++ [element] }
  let r2 : SerialPort × List Event :=
    match s1.dataCallback with
    | some f =>
      if s1.serialBuffer.length ≥ s1.bufferSize then fire env .data f .none s1
      else (s1, [])
    | none => (s1, [])
  let r3 : SerialPort × List Event :=
    match r2.1.rawDataCallback with
    | some g => fire env .rawdata g (.byte element) r2.1
    | none => (r2.1, [])
  (r3.1, r2.2 ++ r3.2)

/-- The call `dataUint8.forEach(...)`: the bytes of one transfer, in order. -/
def readLoopForEach (env : Env) : SerialPort → List Nat → SerialPort × List Event
  | this, [] => (this, [])
  | this, element :: rest =>
    let r := readLoopElement env this element
    let r2 := readLoopForEach env r.1 rest
    (r2.1, r.2 ++ r2.2)

/-- Prefixing the trace of a run with the events that came before it. -/
def Run.after (t : List Event) (r : Run) : Run :=
  { r with trace := t ++ r.trace }

/-- The closure `readLoop` of `open`, run against the answers the host gives
to the successive `transferIn` calls.  Each call of `readLoop` reads
`this.device` (a `TypeError` if it is `null`) and issues
`transferIn(this.endpointIn, 64)`; a fulfilled transfer is handled byte by
byte and `readLoop` is called again; a rejected transfer goes to the error
callback and the loop ends.  When the answers run out the last transfer
stays pending. -/
def readLoop (env : Env) : List (Except JSError (List Nat)) → SerialPort → Run
  | [], this =>
    match this.device with
    | none => ⟨this, [], .rejected typeError⟩
    | some _ => ⟨this, [.host (.transferIn this.endpointIn 64)], .resolved⟩
  | .ok data :: rest, this =>
    match this.device with
    | none => ⟨this, [], .rejected typeError⟩
    | some _ =>
      let r := readLoopForEach env this data
      (readLoop env rest r.1).after (.host (.transferIn this.endpointIn 64) :: r.2)
  | .error error :: _, this =>
    match this.device with
    | none => ⟨this, [], .rejected typeError⟩
    | some _ =>
      let r := reportError env this error
      ⟨r.1, .host (.transferIn this.endpointIn 64) :: r.2, .resolved⟩

/-! ## `open` -/

/-- An awaited call on the host: the call is recorded; if the host rejects
it the method ends there with that error, otherwise it goes on with `k`. -/
def await (host : Host) (this : SerialPort) (c : HostCall) (k : Run) : Run :=
  match host.rejects c with
  | some e => ⟨this, [.host c], .rejected e⟩
  | none => k.after [.host c]

/-- The inner `elementalt.endpoints.forEach(...)` of the descriptor scan. -/
def scanEndpoints (this : SerialPort) (endpoints : List Endpoint) : SerialPort :=
  endpoints.foldl
    (fun s elementendpoint =>
      let s1 :=
        if elementendpoint.direction = "out" then
          { s with endpointOut := elementendpoint.endpointNumber }
        else s
      if elementendpoint.direction = "in" then
        { s1 with endpointIn := elementendpoint.endpointNumber }
      else s1)
    this

/-- The `element.alternates.forEach(...)` of the descriptor scan. -/
def scanAlternates (this : SerialPort) (element : Interface) : SerialPort :=
  element.alternates.foldl
    (fun s elementalt =>
      if elementalt.interfaceClass = 0xff then
        scanEndpoints { s with interfaceNumber := element.interfaceNumber }
          elementalt.endpoints
      else s)
    this

/-- The `configurationInterfaces.forEach(...)` of the descriptor scan. -/
def scanInterfaces (this : SerialPort) (configurationInterfaces : List Interface) :
    SerialPort :=
  configurationInterfaces.foldl scanAlternates this

/-- The seven bytes `baudData` of the SET_LINE_CODING request. -/
def baudData (_baudRate : Int) : List Nat :=
  [ jsAnd (jsShr _baudRate 0) 0x0FF, jsAnd (jsShr _baudRate 8) 0x0FF,
    jsAnd (jsShr _baudRate 16) 0x0FF, jsAnd (jsShr _baudRate 24) 0x0FF,
    0x00, 0x00, 0x08 ].map toUint8

/-- The part of `open` from the descriptor scan to the start of the read loop. -/
def openConfigured (env : Env) (host : Host) (this : SerialPort)
    (configurationInterfaces : List Interface) (_baudRate : Int) : Run :=
  let s := scanInterfaces this configurationInterfaces
  await host s (.claimInterface s.interfaceNumber) <|
  await host s (.selectAlternateInterface s.interfaceNumber 0) <|
  await host s (.controlTransferOut "class" "interface" 0x22 0x01 s.interfaceNumber none) <|
  await host s (.controlTransferOut "class" "interface" 0x20 0x00 s.interfaceNumber
      (some (baudData _baudRate))) <|
  let r : SerialPort × List Event :=
    match s.openCallback with
    | some f => fire env .open_ f .none s
    | none => (s, [])
  (readLoop env [] r.1).after r.2

/-- The part of `open` that runs once `this.device` holds the device `d`:
`await this.device.open()`, then `selectConfiguration(1)` if the device has
no active configuration, then the rest.  A fulfilled `open()` leaves the
device opened; a fulfilled `selectConfiguration(1)` makes the configuration
numbered 1 the active one. -/
def openDevice (env : Env) (host : Host) (this : SerialPort) (d : Device)
    (_baudRate : Int) : Run :=
  await host this .deviceOpen <|
  let d1 := { d with opened := true }
  let s1 := { this with device := some d1 }
  match d1.configuration with
  | none =>
    await host s1 (.selectConfiguration 1) <|
    let d2 :=
      { d1 with
        configuration := d1.configurations.find? (fun c => c.configurationValue = 1) }
    let s2 := { s1 with device := some d2 }
    match d2.configuration with
    | none => ⟨s2, [], .rejected typeError⟩
    | some configuration => openConfigured env host s2 configuration.interfaces _baudRate
  | some configuration => openConfigured env host s1 configuration.interfaces _baudRate

/-- The console lines of the `catch` block around `requestDevice`. -/
def requestDeviceLog (error : JSError) : List Event :=
  if stringIndexOf error.message
      (lit "Must be handling a user gesture to show a permission request") ≥ 0 then
    [.log (.text (lit ("Chrome need open function be triggered with user gesture. " ++
      "Try to call it in mouseClicked() or keyPressed(), etc.")))]
  else if stringIndexOf error.message (lit "No device selected") ≥ 0 then
    []
  else
    [.log (.error error)]

/-- The part of `open` after the `getDevices` step: if no device was adopted,
ask for one with `requestDevice`; a rejection goes to the error callback and
to the console and `open` returns. -/
def openSelect (env : Env) (host : Host) (this : SerialPort) (_baudRate : Int) : Run :=
  match this.device with
  | some d => openDevice env host this d _baudRate
  | none =>
    match host.requestDevice this.filters with
    | .ok d =>
      (openDevice env host { this with device := some d } d _baudRate).after
        [.host (.requestDevice this.filters)]
    | .error error =>
      let r := reportError env this error
      ⟨r.1, .host (.requestDevice this.filters) :: (r.2 ++ requestDeviceLog error), .resolved⟩

/-- The method `open(_autoConnect = true, _baudRate = 9600, cb)`, up to the
point where its promise settles.  An argument that is `none` was not passed
(or passed as `undefined`) and takes its default. -/
def SerialPort.open_ (env : Env) (host : Host) (this : SerialPort)
    (_autoConnect : Option Bool) (_baudRate : Option Int) (cb : Option Callback) : Run :=
  let autoConnect := _autoConnect.getD true
  let baudRate := _baudRate.getD 9600
  let s0 :=
    match cb with
    | some f => { this with openCallback := some f }
    | none => this
  match s0.device with
  | some _ => ⟨s0, [], .resolved⟩
  | none =>
    if autoConnect then
      match host.getDevices with
      | .error e => ⟨s0, [.host .getDevices], .rejected e⟩
      | .ok devices =>
        let s1 :=
          match devices with
          | d :: _ => { s0 with device := some d }
          | [] => s0
        (openSelect env host s1 baudRate).after [.host .getDevices]
    else
      openSelect env host s0 baudRate

/-! ## `write` -/

/-- The argument of `write`, by the case the method distinguishes. -/
inductive WriteData where
  | number (n : Int)
  | string (s : JSString)
  | array (xs : List Int)
  | raw (data : Payload)
  deriving DecidableEq, Repr

/-- The method `write(data)`, up to its return.  `utf8` is the built-in
`unescape(encodeURIComponent(s))`, which may throw.  The handler attached
with `.catch` runs after `write` has returned and is `writeCatch`. -/
def SerialPort.write (env : Env) (utf8 : JSString → Except JSError JSString)
    (this : SerialPort) (data : WriteData) : SerialPort × List Event :=
  let r : Payload × SerialPort × List Event :=
    match data with
    | .number n => (some [toUint8 n], this, [])
    | .string s =>
      match utf8 s with
      | .ok encodedString => (some (encodedString.map (fun c => toUint8 c)), this, [])
      | .error error =>
        let e := reportError env this error
        (none, e.1, e.2)
    | .array xs => (some (xs.map toUint8), this, [])
    | .raw d => (d, this, [])
  let toWrite := r.1
  let s := r.2.1
  match s.device with
  | some _ => (s, r.2.2 ++ [.host (.transferOut s.endpointOut toWrite)])
  | none => (s, r.2.2)

/-- The `.catch` handler of `write`, run if the outbound transfer is rejected. -/
def writeCatch (env : Env) (this : SerialPort) (error : JSError) :
    SerialPort × List Event :=
  reportError env this error

/-! ## `isConnected`, `close` and `on` -/

/-- The method `isConnected`: `this.device && this.device.opened`. -/
def SerialPort.isConnected (this : SerialPort) : Bool :=
  match this.device with
  | some d => d.opened
  | none => false

/-- The end of `close`: `this.device = null`, then the close callback if the
slot is defined. -/
def closeTail (env : Env) (this : SerialPort) : Run :=
  let s1 := { this with device := none }
  match s1.closeCallback with
  | some f =>
    let r := fire env .close f .none s1
    ⟨r.1, r.2, .resolved⟩
  | none => ⟨s1, [], .resolved⟩

/-- The method `close(cb)`.  The device object is dropped right after
`await this.device.close()`, so its `opened` attribute is not tracked further. -/
def SerialPort.close (env : Env) (host : Host) (this : SerialPort)
    (cb : Option Callback) : Run :=
  let s0 :=
    match cb with
    | some f => { this with closeCallback := some f }
    | none => this
  if s0.isConnected then
    await host s0 (.controlTransferOut "class" "interface" 0x22 0x00 s0.interfaceNumber none) <|
    await host s0 .deviceClose <|
    closeTail env s0
  else
    closeTail env s0

/-- The method `on(_event, _callback)`; `_event` is a string and a
`_callback` that is `undefined` is `none`. -/
def SerialPort.on (this : SerialPort) (_event : String) (_callback : Option Callback) :
    SerialPort :=
  if _event = "open" then { this with openCallback := _callback }
  else if _event = "data" then { this with dataCallback := _callback }
  else if _event = "close" then { this with closeCallback := _callback }
  else if _event = "error" then { this with errorCallback := _callback }
  else if _event = "list" then { this with listCallback := _callback }
  else if _event = "connected" then { this with connectedCallback := _callback }
  else if _event = "rawdata" then { this with rawDataCallback := _callback }
  else this

/-- An event that is a host call other than `transferIn`: not a callback
invocation, not a console line, not the start of the read loop. -/
def Event.isSetupCall : Event → Bool
  | .host (.transferIn _ _) => false
  | .host _ => true
  | _ => false

/-- An event that is an invocation from the raw-data slot. -/
def Event.isRawData : Event → Bool
  | .callback .rawdata _ _ => true
  | _ => false

/-! ## Sequences of buffer operations -/

/-- One operation on `serialBuffer`: the `push` of the read loop, or a call
of one of the accessors. -/
inductive BufferOp where
  | push (element : Nat)
  | read
  | readChar
  | readBytes
  | readBytesUntil (charToFind : JSString)
  | readString
  | readStringUntil (stringToFind : JSString)
  | readLine
  | last
  | lastChar
  | clear
  | available
  deriving DecidableEq, Repr

/-- The session after one buffer operation.  `push` is the statement
`this.serialBuffer.push(element)` of the read loop; `available` only reads. -/
def BufferOp.apply (op : BufferOp) (s : SerialPort) : SerialPort :=
  match op with
  | .push element => { s with serialBuffer := s.serialBuffer ++ [element] }
  | .read => s.read.2
  | .readChar => s.readChar.2
  | .readBytes => s.readBytes.2
  | .readBytesUntil charToFind => (s.readBytesUntil charToFind).2
  | .readString => s.readString.2
  | .readStringUntil stringToFind => (s.readStringUntil stringToFind).2
  | .readLine => s.readLine.2
  | .last => s.last.2
  | .lastChar => s.lastChar.2
  | .clear => s.clear
  | .available => s

/-- The number of bytes an operation appends: one for a `push`. -/
def BufferOp.appended (op : BufferOp) : Nat :=
  match op with
  | .push _ => 1
  | _ => 0

/-- The number of bytes an operation removes from the buffer of `s`: for an
accessor call, the length before the call minus the length after it. -/
def BufferOp.removed (op : BufferOp) (s : SerialPort) : Nat :=
  match op with
  | .push _ => 0
  | _ => s.serialBuffer.length - (op.apply s).serialBuffer.length

/-- Running a sequence of operations: the final session, the number of bytes
appended and the number of bytes removed along the way. -/
def runOps : List BufferOp → SerialPort → SerialPort × Nat × Nat
  | [], s => (s, 0, 0)
  | op :: ops, s =>
    let r := runOps ops (op.apply s)
    (r.1, op.appended + r.2.1, op.removed s + r.2.2)

/-! ## Sample inputs -/

/-- A callback environment whose callbacks change `bufferSize` only. -/
def envBufferSize : Env := ⟨fun f _ s => { s with bufferSize := f }⟩

/-- A device with one configuration holding a vendor-class interface. -/
def sampleDevice : Device :=
  ⟨false, none, [⟨1, [⟨0, [⟨2, []⟩]⟩, ⟨3, [⟨255, [⟨"in", 3⟩, ⟨"out", 2⟩]⟩]⟩]⟩]⟩

/-- A callback environment whose callbacks empty the buffer. -/
def envClear : Env := ⟨fun _ _ s => { s with serialBuffer := [] }⟩

/-- A host with no previously authorised device that grants `sampleDevice`
and accepts every call. -/
def sampleHost : Host := ⟨.ok [], fun _ => .ok sampleDevice, fun _ => none⟩

/-- The error of a cancelled chooser. -/
def cancelError : JSError := ⟨"NotFoundError", lit "No device selected."⟩

/-- A host with no previously authorised device whose chooser is cancelled. -/
def cancelHost : Host := ⟨.ok [], fun _ => .error cancelError, fun _ => none⟩

/-- The error of a call on a device that does not answer. -/
def networkError : JSError := ⟨"NetworkError", lit "A transfer error has occurred."⟩

/-- A host that grants `sampleDevice` and rejects every control transfer. -/
def stalledHost : Host :=
  ⟨.ok [], fun _ => .ok sampleDevice,
    fun c =>
      match c with
      | .controlTransferOut _ _ _ _ _ _ => some networkError
      | _ => none⟩

/-- A host that grants `sampleDevice` and rejects every `claimInterface`. -/
def busyHost : Host :=
  ⟨.ok [], fun _ => .ok sampleDevice,
    fun c =>
      match c with
      | .claimInterface _ => some networkError
      | _ => none⟩

/-- A session connected to `sampleDevice`, with close callback 5. -/
def connectedSession : SerialPort :=
  { SerialPort.new .undefined .undefined with
    device := some { sampleDevice with opened := true }
    interfaceNumber := 3
    endpointIn := 3
    endpointOut := 2
    closeCallback := some 5
    serialBuffer := [72, 105] }

/-- The interfaces of a configuration with two vendor-class interfaces, the
second of which has an "out" endpoint only. -/
def mixedInterfaces : List Interface :=
  [⟨1, [⟨255, [⟨"in", 3⟩, ⟨"out", 2⟩]⟩]⟩, ⟨2, [⟨255, [⟨"out", 4⟩]⟩]⟩]

/-! ## Lemmas on the JavaScript primitives -/

theorem sliceIndex_natCast (len n : Nat) : sliceIndex len (n : Int) = min n len := by
  unfold sliceIndex
  have h : ¬ ((n : Int) < 0) := by omega
  simp [h]

theorem slice_natCast {α : Type} (xs : List α) (a b : Nat) :
    slice xs (a : Int) (b : Int) = (xs.take b).drop a := by
  unfold slice
  rw [sliceIndex_natCast, sliceIndex_natCast]
  rcases Nat.le_total b xs.length with hb | hb
  · rw [Nat.min_eq_left hb]
    rcases Nat.le_total a xs.length with ha | ha
    · rw [Nat.min_eq_left ha]
    · rw [Nat.min_eq_right ha]
      rw [List.drop_eq_nil_of_le, List.drop_eq_nil_of_le]
      · simp; omega
      · simp
  · rw [Nat.min_eq_right hb, List.take_of_length_le hb, List.take_of_length_le (le_refl _)]
    rcases Nat.le_total a xs.length with ha | ha
    · rw [Nat.min_eq_left ha]
    · rw [Nat.min_eq_right ha]
      rw [List.drop_eq_nil_of_le (le_refl _), List.drop_eq_nil_of_le ha]

theorem sliceFrom_natCast {α : Type} (xs : List α) (a : Nat) :
    sliceFrom xs (a : Int) = xs.drop a := by
  unfold sliceFrom
  rw [slice_natCast, List.take_of_length_le (le_refl _)]

theorem slice_zero_length {α : Type} (xs : List α) :
    slice xs 0 (xs.length : Int) = xs := by
  have h := slice_natCast xs 0 xs.length
  simpa using h

/-- The index found by `indexOf` when the value first occurs after `pre`. -/
theorem arrayIndexOf_first (pre post : List Nat) (c : Nat) (h : c ∉ pre) :
    arrayIndexOf (pre ++ c :: post) (some c) = (pre.length : Int) := by
  induction pre with
  | nil => simp [arrayIndexOf]
  | cons y ys ih =>
    have hy : y ≠ c := fun e => h (by simp [e])
    have hys : c ∉ ys := fun e => h (by simp [e])
    have e := ih hys
    rw [List.cons_append, arrayIndexOf, if_neg hy, e]
    have hne : ¬ ((ys.length : Int) = -1) := by omega
    simp only [hne, if_false, List.length_cons]
    push_cast; ring

theorem arrayIndexOf_absent (xs : List Nat) (c : Nat) (h : c ∉ xs) :
    arrayIndexOf xs (some c) = -1 := by
  induction xs with
  | nil => simp [arrayIndexOf]
  | cons y ys ih =>
    have hy : y ≠ c := fun e => h (by simp [e])
    have hys : c ∉ ys := fun e => h (by simp [e])
    simp [arrayIndexOf, hy, ih hys]

/-- C2: `read()` on an empty buffer returns -1 and leaves the session as it
was; on a buffer `b :: rest` it returns the oldest byte `b` and leaves
exactly `rest`, in the same order, every other field being untouched. -/
theorem read_empty_and_shift (this : SerialPort) (b : Nat) (rest : List Nat) :
    ({ this with serialBuffer := [] }).read = (-1, { this with serialBuffer := [] }) ∧
    ({ this with serialBuffer := b :: rest }).read
      = ((b : Int), { this with serialBuffer := rest }) := by
  constructor <;> rfl

/-- What one received byte does when the callbacks leave buffer and device alone. -/
theorem readLoopElement_frame (env : Env)
    (hframe : ∀ f a s, (env.run f a s).serialBuffer = s.serialBuffer ∧
      (env.run f a s).device = s.device)
    (this : SerialPort) (element : Nat) :
    (readLoopElement env this element).1.serialBuffer = this.serialBuffer ++ [element] ∧
    (readLoopElement env this element).1.device = this.device := by
  unfold readLoopElement fire
  constructor
  all_goals
    dsimp only
    repeat (any_goals split)
    all_goals simp [(hframe _ _ _).1, (hframe _ _ _).2]

theorem readLoopForEach_frame (env : Env)
    (hframe : ∀ f a s, (env.run f a s).serialBuffer = s.serialBuffer ∧
      (env.run f a s).device = s.device)
    (data : List Nat) (this : SerialPort) :
    (readLoopForEach env this data).1.serialBuffer = this.serialBuffer ++ data ∧
    (readLoopForEach env this data).1.device = this.device := by
  induction data generalizing this with
  | nil => simp [readLoopForEach]
  | cons e es ih =>
    have h1 := readLoopElement_frame env hframe this e
    have h2 := ih (readLoopElement env this e).1
    simp only [readLoopForEach]
    rw [h2.1, h2.2, h1.1, h1.2]
    simp

theorem readLoop_frame (env : Env)
    (hframe : ∀ f a s, (env.run f a s).serialBuffer = s.serialBuffer ∧
      (env.run f a s).device = s.device)
    (transfers : List (List Nat)) (this : SerialPort) (hdev : this.device ≠ none) :
    (readLoop env (transfers.map Except.ok) this).session.serialBuffer
      = this.serialBuffer ++ transfers.flatten := by
  induction transfers generalizing this with
  | nil =>
    cases hd : this.device with
    | none => exact absurd hd hdev
    | some d => simp [readLoop, hd]
  | cons t ts ih =>
    cases hd : this.device with
    | none => exact absurd hd hdev
    | some d =>
      have h1 := readLoopForEach_frame env hframe t this
      have hdev1 : (readLoopForEach env this t).1.device ≠ none := by
        rw [h1.2]; exact hdev
      have h2 := ih (readLoopForEach env this t).1 hdev1
      simp only [List.map_cons, readLoop, hd, Run.after]
      rw [h2, h1.1]
      simp

/-- C1: when the read loop has appended the bytes of the successive inbound
transfers to an empty buffer and the callbacks it invoked left the buffer
and the device alone, one `readBytes()` returns exactly those bytes in
arrival order and leaves the buffer empty; on an empty buffer `readBytes()`
returns -1 and changes nothing. -/
theorem readBytes_after_readLoop (env : Env) (this : SerialPort)
    (transfers : List (List Nat))
    (hframe : ∀ f a s, (env.run f a s).serialBuffer = s.serialBuffer ∧
      (env.run f a s).device = s.device)
    (hempty : this.serialBuffer = []) (hdev : this.device ≠ none)
    (hB : transfers.flatten ≠ []) :
    ((readLoop env (transfers.map Except.ok) this).session.readBytes).1
      = Ret.value transfers.flatten ∧
    ((readLoop env (transfers.map Except.ok) this).session.readBytes).2.serialBuffer = [] ∧
    ∀ s : SerialPort, s.serialBuffer = [] → s.readBytes = (Ret.minusOne, s) := by
  have hbuf := readLoop_frame env hframe transfers this hdev
  rw [hempty, List.nil_append] at hbuf
  have hlen : (readLoop env (transfers.map Except.ok) this).session.serialBuffer.length > 0 := by
    rw [hbuf]; exact List.length_pos.mpr hB
  refine ⟨?_, ?_, ?_⟩
  · unfold SerialPort.readBytes
    rw [if_pos hlen]
    simp only [Int.Nat.cast_ofNat_Int]
    rw [slice_zero_length, hbuf]
  · unfold SerialPort.readBytes
    rw [if_pos hlen]
  · intro s hs
    unfold SerialPort.readBytes
    simp [hs]

theorem readBytes_after_readLoop_witness :
    (((readLoop envBufferSize ([[72, 105], [], [33]].map Except.ok)
        { SerialPort.new .undefined .undefined with
          device := some sampleDevice, dataCallback := some 1 }).session.readBytes).1
      = Ret.value [72, 105, 33]) :=
  (readBytes_after_readLoop envBufferSize
    { SerialPort.new .undefined .undefined with
      device := some sampleDevice, dataCallback := some 1 }
    [[72, 105], [], [33]] (fun _ _ _ => ⟨rfl, rfl⟩) rfl (by decide) (by decide)).1

/-- C4: if the marker byte occurs in the buffer, `readBytesUntil` returns the
bytes from the front of the buffer up to and including its first occurrence
(a sequence that ends with the marker and holds it exactly once); if it
does not occur, `readBytesUntil` returns -1 and leaves the session as it was.
The marker byte is the code of the first character of the argument. -/
theorem readBytesUntil_returns_to_marker (this : SerialPort) (c : Nat) (more : JSString) :
    (∀ pre post : List Nat, this.serialBuffer = pre ++ c :: post → c ∉ pre →
      (this.readBytesUntil (c :: more)).1 = Ret.value (pre ++ [c]) ∧
      (pre ++ [c]).getLast? = some c ∧ (pre ++ [c]).count c = 1) ∧
    (c ∉ this.serialBuffer → this.readBytesUntil (c :: more) = (Ret.minusOne, this)) := by
  constructor
  · intro pre post hbuf hpre
    refine ⟨?_, by simp, ?_⟩
    · unfold SerialPort.readBytesUntil
      simp only [charCodeAt, List.get?_cons_zero, hbuf, arrayIndexOf_first pre post c hpre]
      have hne : ((pre.length : Int) ≠ -1) := by omega
      rw [if_pos hne]
      have h := slice_natCast (pre ++ c :: post) 0 (pre.length + 1)
      simp only [Nat.cast_zero, Nat.cast_add, Nat.cast_one, List.drop_zero] at h
      rw [h]
      simp [List.take_append_eq_append_take]
    · rw [List.count_append, List.count_eq_zero_of_not_mem hpre]
      simp
  · intro habs
    unfold SerialPort.readBytesUntil
    simp [charCodeAt, arrayIndexOf_absent _ _ habs]

theorem readBytesUntil_returns_to_marker_witness :
    (({ SerialPort.new .undefined .undefined with
        serialBuffer := [65, 66, 10, 67, 10] }).readBytesUntil (lit "\n")).1
        = Ret.value ([65, 66] ++ [10]) ∧
    ({ SerialPort.new .undefined .undefined with
        serialBuffer := [65, 66] }).readBytesUntil (lit "\n")
        = (Ret.minusOne, { SerialPort.new .undefined .undefined with
            serialBuffer := [65, 66] }) :=
  ⟨((readBytesUntil_returns_to_marker
      { SerialPort.new .undefined .undefined with serialBuffer := [65, 66, 10, 67, 10] }
      10 []).1 [65, 66] [67, 10] rfl (by decide)).1,
   (readBytesUntil_returns_to_marker
      { SerialPort.new .undefined .undefined with serialBuffer := [65, 66] }
      10 []).2 (by decide)⟩

/-- C5: on the buffer `"AB\nCD"` with marker `"\n"`, `readBytesUntil` returns
`[65, 66, 10]` and leaves `[10, 67, 68]` in the buffer: the marker is still
there, so the returned bytes followed by the new buffer are not the old
buffer and the new buffer is not the bytes that followed the marker. -/
theorem readBytesUntil_keeps_marker :
    ({ SerialPort.new .undefined .undefined with
        serialBuffer := [65, 66, 10, 67, 68] }).readBytesUntil (lit "\n")
      = (Ret.value [65, 66, 10],
         { SerialPort.new .undefined .undefined with serialBuffer := [10, 67, 68] }) ∧
    [65, 66, 10] ++ [10, 67, 68] ≠ [65, 66, 10, 67, 68] ∧
    [10, 67, 68] ≠ [67, 68] := by
  refine ⟨?_, by decide, by decide⟩
  decide

/-! ## Lemmas on `indexOf` for strings and on decoding -/

theorem stringIndexOf_first (m : JSString) (s : JSString) (k : Nat)
    (hk : m <+: s.drop k) (hmin : ∀ j, j < k → ¬ m <+: s.drop j) :
    stringIndexOf s m = (k : Int) := by
  induction s generalizing k with
  | nil =>
    have hm : m <+: [] := by simpa using hk
    have hk0 : k = 0 := by
      by_contra hne
      exact hmin 0 (Nat.pos_of_ne_zero hne) (by simpa using hm)
    subst hk0
    have hp : m.isPrefixOf [] = true := List.isPrefixOf_iff_prefix.mpr hm
    simp [stringIndexOf, hp]
  | cons c s ih =>
    by_cases hp : m.isPrefixOf (c :: s) = true
    · have hk0 : k = 0 := by
        by_contra hne
        exact hmin 0 (Nat.pos_of_ne_zero hne) (by simpa using List.isPrefixOf_iff_prefix.mp hp)
      subst hk0
      simp [stringIndexOf, hp]
    · cases k with
      | zero =>
        exact absurd ( List.isPrefixOf_iff_prefix.mpr (by simpa using hk)) hp
      | succ n =>
        have hrec := ih n (by simpa using hk)
          (fun j hj => by simpa using hmin (j + 1) (by omega))
        rw [stringIndexOf, if_neg hp]
        simp only [hrec]
        have hne : ¬ ((n : Int) = -1) := by omega
        rw [if_neg hne]
        push_cast; ring

theorem stringIndexOf_absent (m : JSString) (s : JSString)
    (h : ∀ k, ¬ m <+: s.drop k) : stringIndexOf s m = -1 := by
  induction s with
  | nil =>
    have hp : ¬ m.isPrefixOf [] = true :=
      fun hp => h 0 (by simpa using List.isPrefixOf_iff_prefix.mp hp)
    simp [stringIndexOf, hp]
  | cons c s ih =>
    have hp : ¬ m.isPrefixOf (c :: s) = true :=
      fun hp => h 0 (by simpa using List.isPrefixOf_iff_prefix.mp hp)
    have hrec := ih (fun k hk => h (k + 1) (by simpa using hk))
    rw [stringIndexOf, if_neg hp]
    simp [hrec]

theorem infix_of_drop (m s : JSString) (k : Nat) (hk : m <+: s.drop k) :
    m <:+: s := by
  obtain ⟨t, ht⟩ := hk
  exact ⟨s.take k, t, by rw [List.append_assoc, ht, List.take_append_drop]⟩

theorem decodeBuffer_eq_map (serialBuffer : List Nat) :
    decodeBuffer serialBuffer = serialBuffer.map (fun n => n % 65536) := by
  induction serialBuffer with
  | nil => rfl
  | cons b bs ih =>
    simp only [decodeBuffer, List.map_cons, List.flatten_cons, fromCharCode] at ih ⊢
    rw [ih]; rfl

theorem decodeBuffer_length (serialBuffer : List Nat) :
    (decodeBuffer serialBuffer).length = serialBuffer.length := by
  rw [decodeBuffer_eq_map, List.length_map]

theorem decodeBuffer_bytes (serialBuffer : List Nat)
    (h : ∀ b ∈ serialBuffer, b < 256) : decodeBuffer serialBuffer = serialBuffer := by
  rw [decodeBuffer_eq_map]
  conv_rhs => rw [← List.map_id serialBuffer]
  apply List.map_congr_left
  intro b hb
  have := h b hb
  simp only [id]
  omega

/-- C3: let the buffer be decoded one character per byte.  If the marker
does not occur in the decoded buffer, `readStringUntil(marker)` returns the
empty string and leaves the session as it was.  If the first occurrence of
the marker starts at position `k`, it returns the first `k` characters and
leaves in the buffer exactly the bytes after the marker, that is the buffer
without its first `k + marker.length` bytes.  The decoded buffer has one
character per byte, and for bytes in 0..255 the characters have the codes of
the bytes. -/
theorem readStringUntil_absent_or_first (this : SerialPort) (stringToFind : JSString) :
    (¬ stringToFind <:+: decodeBuffer this.serialBuffer →
      this.readStringUntil stringToFind = ([], this)) ∧
    (∀ k : Nat, stringToFind <+: (decodeBuffer this.serialBuffer).drop k →
      (∀ j, j < k → ¬ stringToFind <+: (decodeBuffer this.serialBuffer).drop j) →
      this.readStringUntil stringToFind
        = ((decodeBuffer this.serialBuffer).take k,
           { this with
             serialBuffer := this.serialBuffer.drop (k + stringToFind.length) })) ∧
    (decodeBuffer this.serialBuffer).length = this.serialBuffer.length ∧
    ((∀ b ∈ this.serialBuffer, b < 256) →
      decodeBuffer this.serialBuffer = this.serialBuffer) := by
  refine ⟨?_, ?_, decodeBuffer_length _, decodeBuffer_bytes _⟩
  · intro habs
    have h := stringIndexOf_absent stringToFind (decodeBuffer this.serialBuffer)
      (fun k hk => habs (infix_of_drop _ _ k hk))
    unfold SerialPort.readStringUntil
    simp only [h]
    rfl
  · intro k hk hmin
    have h := stringIndexOf_first stringToFind (decodeBuffer this.serialBuffer) k hk hmin
    unfold SerialPort.readStringUntil
    simp only [h]
    have hpos : ((k : Int) > -1) := by omega
    rw [if_pos hpos]
    have hs := sliceFrom_natCast this.serialBuffer (k + stringToFind.length)
    rw [Nat.cast_add] at hs
    rw [hs]
    simp [substr0]

theorem readStringUntil_absent_or_first_witness :
    ({ SerialPort.new .undefined .undefined with
        serialBuffer := [65, 66, 13, 10, 67, 68] }).readStringUntil (lit "XY")
      = ([], { SerialPort.new .undefined .undefined with
                serialBuffer := [65, 66, 13, 10, 67, 68] }) ∧
    ({ SerialPort.new .undefined .undefined with
        serialBuffer := [65, 66, 13, 10, 67, 68] }).readStringUntil [13, 10]
      = ([65, 66], { SerialPort.new .undefined .undefined with serialBuffer := [67, 68] }) ∧
    decodeBuffer [65, 66, 13, 10, 67, 68] = [65, 66, 13, 10, 67, 68] :=
  ⟨(readStringUntil_absent_or_first
      { SerialPort.new .undefined .undefined with serialBuffer := [65, 66, 13, 10, 67, 68] }
      (lit "XY")).1 (by decide),
   (readStringUntil_absent_or_first
      { SerialPort.new .undefined .undefined with serialBuffer := [65, 66, 13, 10, 67, 68] }
      [13, 10]).2.1 2 (by decide) (by decide),
   (readStringUntil_absent_or_first
      { SerialPort.new .undefined .undefined with serialBuffer := [65, 66, 13, 10, 67, 68] }
      []).2.2.2 (by decide)⟩

/-! ## The line-coding payload -/

theorem toUint32_natCast (n : Nat) (h : n < 4294967296) : toUint32 (n : Int) = n := by
  unfold toUint32
  omega

theorem toInt32_byte (n : Nat) (h : n < 256) : toInt32 (n : Int) = n := by
  unfold toInt32
  have : ((n : Int) % 4294967296) = n := by omega
  simp only [this]
  split <;> omega

/-- The value `(x >> k) & 0xFF` stored in a `Uint8Array` is the byte `x / 2^k mod 256` of
the signed 32-bit reading of `x`. -/
theorem toUint8_and_shr (x : Int) (k : Nat) (hk : k < 32) :
    toUint8 (jsAnd (jsShr x k) 0x0FF) = ((toInt32 x / (2 ^ k : Nat)) % 256).toNat := by
  unfold jsAnd jsShr
  rw [Nat.mod_eq_of_lt hk, Int.shiftRight_eq_div_pow]
  have h255 : toUint32 0x0FF = 2 ^ 8 - 1 := by decide
  rw [h255, Nat.and_pow_two_sub_one_eq_mod]
  have hlt : toUint32 (toInt32 x / ((2 ^ k : Nat) : Int)) % 2 ^ 8 < 256 := by
    exact Nat.mod_lt _ (by norm_num)
  rw [toInt32_byte _ hlt]
  unfold toUint8 toUint32
  generalize toInt32 x / ((2 ^ k : Nat) : Int) = y
  omega

theorem and_255 (n : Nat) : n &&& 0xFF = n % 256 := by
  have h := Nat.and_pow_two_sub_one_eq_mod n 8
  norm_num at h
  exact h

/-- C6: for a baud rate `b` with `0 ≤ b < 2^32` the SET_LINE_CODING payload
built by `open` is the seven bytes `[b & 0xFF, (b>>8) & 0xFF, (b>>16) & 0xFF,
(b>>24) & 0xFF, 0, 0, 8]` (unsigned reading of `b`): its first four bytes are
`b` in little-endian order, their weighted sum being `b`; for 9600 the
payload is `[0x80, 0x25, 0, 0, 0, 0, 8]`. -/
theorem baudData_little_endian (b : Nat) (hb : b < 4294967296) :
    baudData (b : Int)
      = [b &&& 0xFF, (b >>> 8) &&& 0xFF, (b >>> 16) &&& 0xFF, (b >>> 24) &&& 0xFF,
         0x00, 0x00, 0x08] ∧
    (b &&& 0xFF) + ((b >>> 8) &&& 0xFF) * 256 + ((b >>> 16) &&& 0xFF) * 256 ^ 2
      + ((b >>> 24) &&& 0xFF) * 256 ^ 3 = b ∧
    baudData 9600 = [0x80, 0x25, 0x00, 0x00, 0x00, 0x00, 0x08] := by
  simp only [and_255, Nat.shiftRight_eq_div_pow]
  refine ⟨?_, by omega, by decide⟩
  unfold baudData
  simp only [List.map_cons, List.map_nil]
  rw [toUint8_and_shr _ 0 (by norm_num), toUint8_and_shr _ 8 (by norm_num),
    toUint8_and_shr _ 16 (by norm_num), toUint8_and_shr _ 24 (by norm_num)]
  have h0 : toUint8 0x00 = 0 := by decide
  have h8 : toUint8 0x08 = 8 := by decide
  rw [h0, h8]
  have hm : ((b : Int) % 4294967296) = b := by omega
  unfold toInt32
  simp only [hm]
  norm_num
  split
  · refine ⟨?_, ?_, ?_, ?_⟩ <;> omega
  · refine ⟨?_, ?_, ?_, ?_⟩ <;> omega

theorem baudData_little_endian_witness :
    baudData ((115200 : Nat) : Int) = [0x00, 0xC2, 0x01, 0x00, 0x00, 0x00, 0x08] ∧
    baudData ((4294967295 : Nat) : Int) = [0xFF, 0xFF, 0xFF, 0xFF, 0x00, 0x00, 0x08] :=
  ⟨(baudData_little_endian 115200 (by decide)).1,
   (baudData_little_endian 4294967295 (by decide)).1⟩

/-! ## The data callback in the read loop -/

/-- What one received byte does to `bufferSize` and to the data slot when
the callbacks leave both alone. -/
theorem readLoopElement_keeps_threshold (env : Env)
    (hkeep : ∀ g a s, (env.run g a s).bufferSize = s.bufferSize ∧
      (env.run g a s).dataCallback = s.dataCallback)
    (this : SerialPort) (element : Nat) :
    (readLoopElement env this element).1.bufferSize = this.bufferSize ∧
    (readLoopElement env this element).1.dataCallback = this.dataCallback := by
  unfold readLoopElement fire
  constructor
  all_goals
    dsimp only
    repeat (any_goals split)
    all_goals simp [(hkeep _ _ _).1, (hkeep _ _ _).2]

theorem readLoopElement_count_data (env : Env) (this : SerialPort) (element : Nat)
    (f : Callback) (hsize : this.bufferSize = 1) (hdata : this.dataCallback = some f) :
    (readLoopElement env this element).2.count (Event.callback .data f .none) = 1 := by
  unfold readLoopElement fire
  simp only [hdata, hsize, List.length_append, List.length_singleton]
  have hle : this.serialBuffer.length + 1 ≥ 1 := by omega
  rw [if_pos hle]
  split <;> simp

theorem readLoopForEach_count_data (env : Env)
    (hkeep : ∀ g a s, (env.run g a s).bufferSize = s.bufferSize ∧
      (env.run g a s).dataCallback = s.dataCallback)
    (data : List Nat) (this : SerialPort) (f : Callback)
    (hsize : this.bufferSize = 1) (hdata : this.dataCallback = some f) :
    (readLoopForEach env this data).2.count (Event.callback .data f .none) = data.length := by
  induction data generalizing this with
  | nil => simp [readLoopForEach]
  | cons e es ih =>
    have hk := readLoopElement_keeps_threshold env hkeep this e
    have h1 := readLoopElement_count_data env this e f hsize hdata
    have h2 := ih (readLoopElement env this e).1 (by rw [hk.1, hsize]) (by rw [hk.2, hdata])
    simp only [readLoopForEach, List.count_append, h1, h2, List.length_cons]
    omega

/-- C8: in the handling of one fulfilled inbound transfer, the data callback
`f` fires after a byte is appended exactly when `f` is the registered data
callback and the buffer, with the new byte, holds at least `bufferSize`
bytes; and when `bufferSize` is 1, a data callback is registered and the
callbacks leave `bufferSize` and the data slot alone (whatever they do to
the buffer), a transfer of N bytes fires the data callback exactly N times. -/
theorem dataCallback_fires_per_byte (env : Env) :
    (∀ (this : SerialPort) (element : Nat) (f : Callback),
      Event.callback .data f .none ∈ (readLoopElement env this element).2 ↔
        (this.dataCallback = some f ∧ this.serialBuffer.length + 1 ≥ this.bufferSize)) ∧
    (∀ (this : SerialPort) (data : List Nat) (f : Callback),
      (∀ g a s, (env.run g a s).bufferSize = s.bufferSize ∧
        (env.run g a s).dataCallback = s.dataCallback) →
      this.bufferSize = 1 → this.dataCallback = some f →
      (readLoopForEach env this data).2.count (Event.callback .data f .none)
        = data.length) := by
  constructor
  · intro this element f
    unfold readLoopElement fire
    simp only [List.length_append, List.length_singleton]
    cases hd : this.dataCallback with
    | none =>
      simp only [List.nil_append]
      split <;> simp
    | some g =>
      by_cases hle : this.serialBuffer.length + 1 ≥ this.bufferSize
      · simp only [if_pos hle]
        split <;> simp [hle, eq_comm]
      · simp only [if_neg hle]
        split <;> simp [hle]
  · intro this data f hkeep hsize hdata
    exact readLoopForEach_count_data env hkeep data this f hsize hdata

theorem dataCallback_fires_per_byte_witness :
    (readLoopForEach envClear
        { SerialPort.new .undefined .undefined with
          dataCallback := some 7, rawDataCallback := some 7 } [1, 2, 3]).2.count
      (Event.callback .data 7 .none) = [1, 2, 3].length :=
  (dataCallback_fires_per_byte envClear).2
    { SerialPort.new .undefined .undefined with
      dataCallback := some 7, rawDataCallback := some 7 }
    [1, 2, 3] 7 (fun _ _ _ => ⟨rfl, rfl⟩) rfl rfl

/-! ## `write` of a number -/

/-- C9: for an integer `n` in 0..255 and a session holding a device,
`write(n)` makes exactly one host call, the outbound transfer to the
`endpointOut` of the session with the one-byte payload `[n]`, and leaves the whole
session, `serialBuffer` included, as it was; `write(42)` sends the byte 42. -/
theorem write_number_one_byte (env : Env) (utf8 : JSString → Except JSError JSString)
    (this : SerialPort) (d : Device) (n : Nat) (hn : n ≤ 255)
    (hdev : this.device = some d) :
    this.write env utf8 (.number (n : Int))
      = (this, [Event.host (.transferOut this.endpointOut (some [n]))]) ∧
    (this.write env utf8 (.number (n : Int))).1.serialBuffer = this.serialBuffer ∧
    (this.write env utf8 (.number 42)).2
      = [Event.host (.transferOut this.endpointOut (some [42]))] := by
  have h8 : toUint8 (n : Int) = n := by unfold toUint8; omega
  have h42 : toUint8 42 = 42 := by decide
  unfold SerialPort.write
  simp [hdev, h8, h42]

theorem write_number_one_byte_witness :
    ({ SerialPort.new .undefined .undefined with
        device := some sampleDevice, endpointOut := 2 }).write envClear Except.ok
        (.number ((200 : Nat) : Int))
      = ({ SerialPort.new .undefined .undefined with
            device := some sampleDevice, endpointOut := 2 },
         [Event.host (.transferOut 2 (some [200]))]) :=
  (write_number_one_byte envClear Except.ok
    { SerialPort.new .undefined .undefined with
      device := some sampleDevice, endpointOut := 2 }
    sampleDevice 200 (by decide) rfl).1

/-! ## Lemmas on `open` -/

theorem await_resolved (host : Host) (this : SerialPort) (c : HostCall) (k : Run)
    (h : (await host this c k).outcome = .resolved) :
    k.outcome = .resolved ∧ await host this c k = k.after [.host c] := by
  unfold await at h ⊢
  cases hr : host.rejects c with
  | some e => rw [hr] at h; simp at h
  | none => rw [hr] at h; exact ⟨by simpa [Run.after] using h, rfl⟩

theorem foldl_update {α β : Type} (step : α → β → α) (u : α → α)
    (h : ∀ a b, step (u a) b = u (step a b)) (l : List β) (a : α) :
    l.foldl step (u a) = u (l.foldl step a) := by
  induction l generalizing a with
  | nil => rfl
  | cons b bs ih => simp only [List.foldl_cons, h, ih]

theorem scanEndpoints_update (dev : Option Device) (f : Option Callback)
    (endpoints : List Endpoint) (s : SerialPort) :
    scanEndpoints { s with device := dev, openCallback := f } endpoints
      = { scanEndpoints s endpoints with device := dev, openCallback := f } := by
  unfold scanEndpoints
  refine foldl_update _ (fun t => { t with device := dev, openCallback := f }) ?_ endpoints s
  intro a b
  dsimp only
  split_ifs <;> rfl

theorem scanAlternates_update (dev : Option Device) (f : Option Callback)
    (element : Interface) (s : SerialPort) :
    scanAlternates { s with device := dev, openCallback := f } element
      = { scanAlternates s element with device := dev, openCallback := f } := by
  unfold scanAlternates
  refine foldl_update _ (fun t => { t with device := dev, openCallback := f }) ?_
    element.alternates s
  intro a b
  dsimp only
  split_ifs
  · exact scanEndpoints_update dev f b.endpoints
      { a with interfaceNumber := element.interfaceNumber }
  · rfl

theorem scanInterfaces_update (dev : Option Device) (f : Option Callback)
    (configurationInterfaces : List Interface) (s : SerialPort) :
    scanInterfaces { s with device := dev, openCallback := f } configurationInterfaces
      = { scanInterfaces s configurationInterfaces with device := dev, openCallback := f } := by
  unfold scanInterfaces
  exact foldl_update _ (fun t => { t with device := dev, openCallback := f })
    (fun a b => scanAlternates_update dev f b a) configurationInterfaces s

theorem readLoop_nil_resolved (env : Env) (s : SerialPort)
    (h : (readLoop env [] s).outcome = .resolved) :
    readLoop env [] s = ⟨s, [.host (.transferIn s.endpointIn 64)], .resolved⟩ := by
  unfold readLoop at h ⊢
  cases hd : s.device with
  | none => rw [hd] at h; simp at h
  | some d => rfl

theorem openConfigured_resolved (env : Env) (host : Host) (s : SerialPort)
    (configurationInterfaces : List Interface) (_baudRate : Int)
    (h : (openConfigured env host s configurationInterfaces _baudRate).outcome = .resolved) :
    (openConfigured env host s configurationInterfaces _baudRate).trace
      = [ Event.host (.claimInterface (scanInterfaces s configurationInterfaces).interfaceNumber),
          Event.host (.selectAlternateInterface
            (scanInterfaces s configurationInterfaces).interfaceNumber 0),
          Event.host (.controlTransferOut "class" "interface" 0x22 0x01
            (scanInterfaces s configurationInterfaces).interfaceNumber none),
          Event.host (.controlTransferOut "class" "interface" 0x20 0x00
            (scanInterfaces s configurationInterfaces).interfaceNumber
            (some (baudData _baudRate))) ]
        ++ (match (scanInterfaces s configurationInterfaces).openCallback with
            | some f => [Event.callback .open_ f .none]
            | none => [])
        ++ [Event.host (.transferIn
              (openConfigured env host s configurationInterfaces _baudRate).session.endpointIn
              64)] := by
  unfold openConfigured at h ⊢
  dsimp only at h ⊢
  obtain ⟨h1, e1⟩ := await_resolved _ _ _ _ h
  rw [e1]
  obtain ⟨h2, e2⟩ := await_resolved _ _ _ _ h1
  rw [e2]
  obtain ⟨h3, e3⟩ := await_resolved _ _ _ _ h2
  rw [e3]
  obtain ⟨h4, e4⟩ := await_resolved _ _ _ _ h3
  rw [e4]
  have h5 : (readLoop env []
      (match (scanInterfaces s configurationInterfaces).openCallback with
        | some f => fire env .open_ f .none (scanInterfaces s configurationInterfaces)
        | none => (scanInterfaces s configurationInterfaces, [])).1).outcome = .resolved := by
    simpa [Run.after] using h4
  rw [readLoop_nil_resolved env _ h5]
  cases (scanInterfaces s configurationInterfaces).openCallback <;> simp [Run.after, fire]

theorem openDevice_resolved (env : Env) (host : Host) (s : SerialPort) (d : Device)
    (_baudRate : Int)
    (h : (openDevice env host s d _baudRate).outcome = .resolved) :
    ∃ (conf : Configuration) (dev : Option Device),
      (d.configuration = some conf ∨
        (d.configuration = none ∧
          d.configurations.find? (fun c => c.configurationValue = 1) = some conf)) ∧
      (openConfigured env host { s with device := dev } conf.interfaces _baudRate).outcome
        = .resolved ∧
      (openDevice env host s d _baudRate).session
        = (openConfigured env host { s with device := dev } conf.interfaces _baudRate).session ∧
      (openDevice env host s d _baudRate).trace
        = [Event.host .deviceOpen]
          ++ (match d.configuration with
              | none => [Event.host (.selectConfiguration 1)]
              | some _ => [])
          ++ (openConfigured env host { s with device := dev } conf.interfaces
                _baudRate).trace := by
  unfold openDevice at h ⊢
  obtain ⟨h1, e1⟩ := await_resolved _ _ _ _ h
  rw [e1]
  dsimp only at h1 ⊢
  cases hc : d.configuration with
  | some conf =>
    simp only [hc] at h1 ⊢
    exact ⟨conf, _, Or.inl rfl, h1, rfl, rfl⟩
  | none =>
    simp only [hc] at h1 ⊢
    obtain ⟨h2, e2⟩ := await_resolved _ _ _ _ h1
    rw [e2]
    cases hf : d.configurations.find? (fun c => c.configurationValue = 1) with
    | none => simp [hf] at h2
    | some conf =>
      simp only [hf] at h2 ⊢
      exact ⟨conf, _, Or.inr ⟨trivial, rfl⟩, h2, rfl, rfl⟩

theorem openDevice_calls (env : Env) (host : Host) (this : SerialPort) (d : Device)
    (f : Option Callback) (_baudRate : Int)
    (h : (openDevice env host { this with device := some d, openCallback := f } d
      _baudRate).outcome = .resolved) :
    ∃ conf : Configuration,
      (d.configuration = some conf ∨
        (d.configuration = none ∧
          d.configurations.find? (fun c => c.configurationValue = 1) = some conf)) ∧
      (openDevice env host { this with device := some d, openCallback := f } d
        _baudRate).trace
        = [Event.host .deviceOpen]
          ++ (match d.configuration with
              | none => [Event.host (.selectConfiguration 1)]
              | some _ => [])
          ++ [ Event.host (.claimInterface (scanInterfaces this conf.interfaces).interfaceNumber),
               Event.host (.selectAlternateInterface
                 (scanInterfaces this conf.interfaces).interfaceNumber 0),
               Event.host (.controlTransferOut "class" "interface" 0x22 0x01
                 (scanInterfaces this conf.interfaces).interfaceNumber none),
               Event.host (.controlTransferOut "class" "interface" 0x20 0x00
                 (scanInterfaces this conf.interfaces).interfaceNumber
                 (some (baudData _baudRate))) ]
          ++ f.toList.map (fun g => Event.callback .open_ g .none)
          ++ [Event.host (.transferIn
                (openDevice env host { this with device := some d, openCallback := f } d
                  _baudRate).session.endpointIn 64)] := by
  obtain ⟨conf, dev, hconf, hres, hses, htr⟩ := openDevice_resolved env host _ d _baudRate h
  refine ⟨conf, hconf, ?_⟩
  have hc := openConfigured_resolved env host _ conf.interfaces _baudRate hres
  have hs : ({ ({ this with device := some d, openCallback := f } : SerialPort) with
      device := dev } : SerialPort) = { this with device := dev, openCallback := f } := rfl
  rw [htr, hses, hc, hs, scanInterfaces_update]
  cases f <;> simp

/-- C7: a successful `open` on a session that holds no device, where the host
hands over the device `d` (the first previously authorised device, or the
one granted by `requestDevice`), makes after the selection calls `pre` on
`navigator.usb` exactly these calls, in this order: `open()`;
`selectConfiguration(1)` if and only if the active configuration of `d` is
null; `claimInterface(n)`; `selectAlternateInterface(n, 0)`; the
class/interface control transfer with request 0x22, value 0x01, index `n`
and no payload; the class/interface control transfer with request 0x20,
value 0x00, index `n` and the seven line-coding bytes; then the open
callback once, if one is registered (the one passed to `open`, else the one
in the slot); and only then `transferIn(endpointIn, 64)`.  Here `n` is the
interface number found by the descriptor scan of the active configuration. -/
theorem open_success_call_order (env : Env) (host : Host) (this : SerialPort)
    (_autoConnect : Option Bool) (_baudRate : Option Int) (cb : Option Callback)
    (d : Device) (pre : List Event)
    (hnodev : this.device = none)
    (hsel :
      (_autoConnect.getD true = true ∧ (∃ ds, host.getDevices = .ok (d :: ds)) ∧
        pre = [Event.host .getDevices]) ∨
      (_autoConnect.getD true = true ∧ host.getDevices = .ok [] ∧
        host.requestDevice this.filters = .ok d ∧
        pre = [Event.host .getDevices, Event.host (.requestDevice this.filters)]) ∨
      (_autoConnect.getD true = false ∧ host.requestDevice this.filters = .ok d ∧
        pre = [Event.host (.requestDevice this.filters)]))
    (hok : (this.open_ env host _autoConnect _baudRate cb).outcome = .resolved) :
    ∃ conf : Configuration,
      (d.configuration = some conf ∨
        (d.configuration = none ∧
          d.configurations.find? (fun c => c.configurationValue = 1) = some conf)) ∧
      (this.open_ env host _autoConnect _baudRate cb).trace
        = pre
          ++ [Event.host .deviceOpen]
          ++ (match d.configuration with
              | none => [Event.host (.selectConfiguration 1)]
              | some _ => [])
          ++ [ Event.host (.claimInterface (scanInterfaces this conf.interfaces).interfaceNumber),
               Event.host (.selectAlternateInterface
                 (scanInterfaces this conf.interfaces).interfaceNumber 0),
               Event.host (.controlTransferOut "class" "interface" 0x22 0x01
                 (scanInterfaces this conf.interfaces).interfaceNumber none),
               Event.host (.controlTransferOut "class" "interface" 0x20 0x00
                 (scanInterfaces this conf.interfaces).interfaceNumber
                 (some (baudData (_baudRate.getD 9600)))) ]
          ++ (cb.or this.openCallback).toList.map (fun g => Event.callback .open_ g .none)
          ++ [Event.host (.transferIn
                (this.open_ env host _autoConnect _baudRate cb).session.endpointIn 64)] := by
  cases cb with
  | none =>
    unfold SerialPort.open_ at hok ⊢
    simp only [hnodev] at hok ⊢
    rcases hsel with ⟨ha, ⟨ds, hg⟩, hpre⟩ | ⟨ha, hg, hr, hpre⟩ | ⟨ha, hr, hpre⟩
    · simp only [ha, hg, if_true, openSelect, Run.after] at hok ⊢
      obtain ⟨conf, hconf, htr⟩ := openDevice_calls env host this d this.openCallback _ hok
      refine ⟨conf, hconf, ?_⟩
      rw [htr, hpre]
      simp
    · simp only [ha, hg, if_true, openSelect, hnodev, hr, Run.after] at hok ⊢
      obtain ⟨conf, hconf, htr⟩ := openDevice_calls env host this d this.openCallback _ hok
      refine ⟨conf, hconf, ?_⟩
      rw [htr, hpre]
      simp
    · simp only [ha, openSelect, hnodev, hr, Run.after] at hok ⊢
      obtain ⟨conf, hconf, htr⟩ := openDevice_calls env host this d this.openCallback _ hok
      refine ⟨conf, hconf, ?_⟩
      rw [htr, hpre]
      simp
  | some f =>
    unfold SerialPort.open_ at hok ⊢
    simp only [hnodev] at hok ⊢
    rcases hsel with ⟨ha, ⟨ds, hg⟩, hpre⟩ | ⟨ha, hg, hr, hpre⟩ | ⟨ha, hr, hpre⟩
    · simp only [ha, hg, if_true, openSelect, Run.after] at hok ⊢
      obtain ⟨conf, hconf, htr⟩ := openDevice_calls env host this d (some f) _ hok
      refine ⟨conf, hconf, ?_⟩
      rw [htr, hpre]
      simp
    · simp only [ha, hg, if_true, openSelect, hnodev, hr, Run.after] at hok ⊢
      obtain ⟨conf, hconf, htr⟩ := openDevice_calls env host this d (some f) _ hok
      refine ⟨conf, hconf, ?_⟩
      rw [htr, hpre]
      simp
    · simp only [ha, openSelect, hnodev, hr, Run.after] at hok ⊢
      obtain ⟨conf, hconf, htr⟩ := openDevice_calls env host this d (some f) _ hok
      refine ⟨conf, hconf, ?_⟩
      rw [htr, hpre]
      simp

theorem open_success_call_order_witness :
    ∃ conf : Configuration,
      (sampleDevice.configuration = some conf ∨
        (sampleDevice.configuration = none ∧
          sampleDevice.configurations.find? (fun c => c.configurationValue = 1) = some conf)) ∧
      ((SerialPort.new .undefined .undefined).open_ envClear sampleHost none none (some 7)).trace
        = [Event.host .getDevices,
            Event.host (.requestDevice (SerialPort.new .undefined .undefined).filters)]
          ++ [Event.host .deviceOpen]
          ++ (match sampleDevice.configuration with
              | none => [Event.host (.selectConfiguration 1)]
              | some _ => [])
          ++ [ Event.host (.claimInterface
                 (scanInterfaces (SerialPort.new .undefined .undefined)
                   conf.interfaces).interfaceNumber),
               Event.host (.selectAlternateInterface
                 (scanInterfaces (SerialPort.new .undefined .undefined)
                   conf.interfaces).interfaceNumber 0),
               Event.host (.controlTransferOut "class" "interface" 0x22 0x01
                 (scanInterfaces (SerialPort.new .undefined .undefined)
                   conf.interfaces).interfaceNumber none),
               Event.host (.controlTransferOut "class" "interface" 0x20 0x00
                 (scanInterfaces (SerialPort.new .undefined .undefined)
                   conf.interfaces).interfaceNumber
                 (some (baudData ((none : Option Int).getD 9600)))) ]
          ++ ((some 7 : Option Callback).or
                (SerialPort.new .undefined .undefined).openCallback).toList.map
              (fun g => Event.callback .open_ g .none)
          ++ [Event.host (.transferIn
                ((SerialPort.new .undefined .undefined).open_ envClear sampleHost none none
                  (some 7)).session.endpointIn 64)] :=
  open_success_call_order envClear sampleHost (SerialPort.new .undefined .undefined)
    none none (some 7) sampleDevice
    [Event.host .getDevices,
      Event.host (.requestDevice (SerialPort.new .undefined .undefined).filters)]
    rfl (Or.inr (Or.inl ⟨rfl, rfl, rfl, rfl⟩)) (by decide)

/-! ## `open` when the chooser is cancelled -/

/-- C10, as stated, fails: with an error callback registered (here callback 9),
a cancelled chooser makes `open` invoke that callback with the error. -/
theorem open_cancelled_fires_error_callback :
    stringIndexOf cancelError.message (lit "No device selected") ≥ 0 ∧
    (({ SerialPort.new .undefined .undefined with errorCallback := some 9 }).open_
        envClear cancelHost (some false) none none).trace
      = [Event.host (.requestDevice defaultFilters),
         Event.callback .error 9 (.error cancelError)] := by
  constructor
  · decide
  · decide

/-- C10, amended: when `open` runs on a session without a device, asks for
permission and the request fails with an error whose message contains
"No device selected", `open` throws nothing and invokes no callback other
than the error callback: its trace is the selection calls, then the error
callback once with the error if one is registered, then the user-gesture
console line if the message contains that text as well.  The session is the
one at entry (with `cb` stored as open callback if passed) if no error
callback is registered, so the device is still null, and otherwise what the
error callback made of that session. -/
theorem open_cancelled_only_error_callback (env : Env) (host : Host) (this : SerialPort)
    (_autoConnect : Option Bool) (_baudRate : Option Int) (cb : Option Callback)
    (error : JSError)
    (hnodev : this.device = none)
    (hask : _autoConnect.getD true = false ∨ host.getDevices = .ok [])
    (hrej : host.requestDevice this.filters = .error error)
    (hmsg : stringIndexOf error.message (lit "No device selected") ≥ 0) :
    (this.open_ env host _autoConnect _baudRate cb).outcome = .resolved ∧
    (this.open_ env host _autoConnect _baudRate cb).trace
      = (if _autoConnect.getD true = true then [Event.host .getDevices] else [])
        ++ [Event.host (.requestDevice this.filters)]
        ++ this.errorCallback.toList.map (fun f => Event.callback .error f (.error error))
        ++ (if stringIndexOf error.message
              (lit "Must be handling a user gesture to show a permission request") ≥ 0
            then [Event.log (.text (lit ("Chrome need open function be triggered with user " ++
              "gesture. Try to call it in mouseClicked() or keyPressed(), etc.")))]
            else []) ∧
    (this.open_ env host _autoConnect _baudRate cb).session
      = (match this.errorCallback with
         | some f =>
           env.run f (.error error) { this with openCallback := cb.or this.openCallback }
         | none => { this with openCallback := cb.or this.openCallback }) ∧
    (this.errorCallback = none →
      (this.open_ env host _autoConnect _baudRate cb).session.device = none) := by
  have hlog : requestDeviceLog error
      = (if stringIndexOf error.message
              (lit "Must be handling a user gesture to show a permission request") ≥ 0
            then [Event.log (.text (lit ("Chrome need open function be triggered with user " ++
              "gesture. Try to call it in mouseClicked() or keyPressed(), etc.")))]
            else []) := by
    unfold requestDeviceLog
    rw [if_pos hmsg]
    rfl
  have hg : _autoConnect.getD true = true → host.getDevices = .ok [] := by
    intro ha
    rcases hask with h | h
    · rw [ha] at h; cases h
    · exact h
  obtain ⟨bs, sb, sc, dev, inum, ein, eout, fl, ocb, dcb, ccb, ecb, lcb, ncb, rcb⟩ := this
  simp only at hnodev hrej
  subst hnodev
  unfold SerialPort.open_
  by_cases ha : _autoConnect.getD true = true
  · cases cb <;> cases ecb <;>
      simp [ha, hg ha, openSelect, hrej, Run.after, reportError, hlog, fire]
  · cases cb <;> cases ecb <;>
      simp [ha, openSelect, hrej, Run.after, reportError, hlog, fire]

theorem open_cancelled_only_error_callback_witness :
    ((SerialPort.new .undefined .undefined).open_ envClear cancelHost none (some 115200)
        (some 3)).outcome = .resolved ∧
    ((SerialPort.new .undefined .undefined).open_ envClear cancelHost none (some 115200)
        (some 3)).session.device = none :=
  ⟨(open_cancelled_only_error_callback envClear cancelHost
      (SerialPort.new .undefined .undefined) none (some 115200) (some 3) cancelError
      rfl (Or.inr rfl) rfl (by decide)).1,
   (open_cancelled_only_error_callback envClear cancelHost
      (SerialPort.new .undefined .undefined) none (some 115200) (some 3) cancelError
      rfl (Or.inr rfl) rfl (by decide)).2.2.2 rfl⟩

/-! ## `open` on a session that already holds a device -/

/-- C11, as stated, fails: on a session that holds a device, `open` with a
callback argument stores the callback in the `openCallback` slot. -/
theorem open_with_device_stores_callback :
    ({ SerialPort.new .undefined .undefined with device := some sampleDevice }).device ≠ none ∧
    (({ SerialPort.new .undefined .undefined with device := some sampleDevice }).open_
        envClear sampleHost none none (some 7)).session.openCallback = some 7 ∧
    (({ SerialPort.new .undefined .undefined with device := some sampleDevice }).open_
        envClear sampleHost none none (some 7)).session
      ≠ { SerialPort.new .undefined .undefined with device := some sampleDevice } := by
  refine ⟨by decide, by decide, by decide⟩

/-- C11, amended: on a session whose device is non-null, `open` with any
arguments makes no host call, invokes no callback, starts no read loop
(its trace is empty) and resolves; every field of the session is unchanged
except `openCallback`, which becomes `cb` when a callback `cb` is passed. -/
theorem open_with_device_only_stores_callback (env : Env) (host : Host) (this : SerialPort)
    (_autoConnect : Option Bool) (_baudRate : Option Int) (cb : Option Callback)
    (hdev : this.device ≠ none) :
    (this.open_ env host _autoConnect _baudRate cb).trace = [] ∧
    (this.open_ env host _autoConnect _baudRate cb).outcome = .resolved ∧
    (this.open_ env host _autoConnect _baudRate cb).session
      = { this with openCallback := cb.or this.openCallback } ∧
    (this.open_ env host _autoConnect _baudRate none).session = this := by
  obtain ⟨bs, sb, sc, dev, inum, ein, eout, fl, ocb, dcb, ccb, ecb, lcb, ncb, rcb⟩ := this
  cases dev with
  | none => exact absurd rfl hdev
  | some d =>
    unfold SerialPort.open_
    cases cb <;> simp

theorem open_with_device_only_stores_callback_witness :
    (({ SerialPort.new .undefined .undefined with device := some sampleDevice }).open_
        envClear sampleHost (some false) (some 115200) (some 7)).trace = [] ∧
    (({ SerialPort.new .undefined .undefined with device := some sampleDevice }).open_
        envClear sampleHost (some false) (some 115200) none).session
      = { SerialPort.new .undefined .undefined with device := some sampleDevice } :=
  ⟨(open_with_device_only_stores_callback envClear sampleHost
      { SerialPort.new .undefined .undefined with device := some sampleDevice }
      (some false) (some 115200) (some 7) (by decide)).1,
   (open_with_device_only_stores_callback envClear sampleHost
      { SerialPort.new .undefined .undefined with device := some sampleDevice }
      (some false) (some 115200) (some 7) (by decide)).2.2.2⟩

/-! ## The descriptor scan -/

/-- What the endpoint loop leaves: the interface number is kept, and each
endpoint number is the one of the last endpoint of that direction, if any. -/
theorem scanEndpoints_fields (endpoints : List Endpoint) (s : SerialPort) :
    (scanEndpoints s endpoints).interfaceNumber = s.interfaceNumber ∧
    (scanEndpoints s endpoints).endpointIn
      = (((endpoints.filter (fun e => e.direction = "in")).getLast?).map
          (fun e => e.endpointNumber)).getD s.endpointIn ∧
    (scanEndpoints s endpoints).endpointOut
      = (((endpoints.filter (fun e => e.direction = "out")).getLast?).map
          (fun e => e.endpointNumber)).getD s.endpointOut := by
  induction endpoints using List.reverseRecOn with
  | nil => simp [scanEndpoints]
  | append_singleton l e ih =>
    unfold scanEndpoints at ih ⊢
    rw [List.foldl_append]
    simp only [List.foldl_cons, List.foldl_nil, List.filter_append]
    by_cases ho : e.direction = "out"
    · have hi : ¬ e.direction = "in" := by rw [ho]; decide
      simp [ho, ih]
    · by_cases hi : e.direction = "in"
      · simp [hi, ih]
      · simp [ho, hi, ih]

theorem foldl_alternates_no_vendor (n : Nat) (alternates : List Alternate)
    (h : ∀ a ∈ alternates, a.interfaceClass ≠ 0xff) (s : SerialPort) :
    alternates.foldl
      (fun s elementalt =>
        if elementalt.interfaceClass = 0xff then
          scanEndpoints { s with interfaceNumber := n } elementalt.endpoints
        else s)
      s = s := by
  induction alternates generalizing s with
  | nil => rfl
  | cons a as ih =>
    have ha : ¬ a.interfaceClass = 0xff := h a (by simp)
    simp only [List.foldl_cons, ha, if_false]
    exact ih (fun b hb => h b (by simp [hb])) s

theorem scanAlternates_no_vendor (element : Interface)
    (h : ∀ a ∈ element.alternates, a.interfaceClass ≠ 0xff) (s : SerialPort) :
    scanAlternates s element = s := by
  unfold scanAlternates
  exact foldl_alternates_no_vendor element.interfaceNumber element.alternates h s

theorem scanInterfaces_no_vendor (configurationInterfaces : List Interface)
    (h : ∀ x ∈ configurationInterfaces, ∀ a ∈ x.alternates, a.interfaceClass ≠ 0xff)
    (s : SerialPort) :
    scanInterfaces s configurationInterfaces = s := by
  unfold scanInterfaces
  induction configurationInterfaces generalizing s with
  | nil => rfl
  | cons x xs ih =>
    simp only [List.foldl_cons]
    rw [scanAlternates_no_vendor x (h x (by simp))]
    exact ih (fun y hy => h y (by simp [hy])) s

/-- The scan of an interface whose only vendor-class alternate is `alt`. -/
theorem scanAlternates_single_vendor (element : Interface) (apre apost : List Alternate)
    (alt : Alternate) (halts : element.alternates = apre ++ alt :: apost)
    (hapre : ∀ a ∈ apre, a.interfaceClass ≠ 0xff)
    (hapost : ∀ a ∈ apost, a.interfaceClass ≠ 0xff)
    (hclass : alt.interfaceClass = 0xff) (s : SerialPort) :
    scanAlternates s element
      = scanEndpoints { s with interfaceNumber := element.interfaceNumber } alt.endpoints := by
  unfold scanAlternates
  rw [halts, List.foldl_append, foldl_alternates_no_vendor _ apre hapre]
  simp only [List.foldl_cons, hclass, if_true]
  exact foldl_alternates_no_vendor _ apost hapost _

/-- C12: when the configuration exposes exactly one interface with an
alternate setting of class 0xFF, and that alternate has one endpoint of
direction "in" (numbered `ein.endpointNumber`) and one of direction "out"
(numbered `eout.endpointNumber`), the descriptor scan of `open` leaves
`interfaceNumber` equal to the number of that interface, `endpointIn` equal
to the number of the "in" endpoint and `endpointOut` equal to the number of
the "out" endpoint, whatever the three fields held before. -/
theorem scan_single_vendor_interface (this : SerialPort) (pre post : List Interface)
    (element : Interface) (apre apost : List Alternate) (alt : Alternate)
    (ein eout : Endpoint)
    (hpre : ∀ x ∈ pre, ∀ a ∈ x.alternates, a.interfaceClass ≠ 0xff)
    (hpost : ∀ x ∈ post, ∀ a ∈ x.alternates, a.interfaceClass ≠ 0xff)
    (halts : element.alternates = apre ++ alt :: apost)
    (hapre : ∀ a ∈ apre, a.interfaceClass ≠ 0xff)
    (hapost : ∀ a ∈ apost, a.interfaceClass ≠ 0xff)
    (hclass : alt.interfaceClass = 0xff)
    (hin : alt.endpoints.filter (fun e => e.direction = "in") = [ein])
    (hout : alt.endpoints.filter (fun e => e.direction = "out") = [eout]) :
    (scanInterfaces this (pre ++ element :: post)).interfaceNumber = element.interfaceNumber ∧
    (scanInterfaces this (pre ++ element :: post)).endpointIn = ein.endpointNumber ∧
    (scanInterfaces this (pre ++ element :: post)).endpointOut = eout.endpointNumber := by
  have hscan : scanInterfaces this (pre ++ element :: post)
      = scanEndpoints { this with interfaceNumber := element.interfaceNumber }
          alt.endpoints := by
    have h1 : scanInterfaces this (pre ++ element :: post)
        = scanInterfaces (scanAlternates (scanInterfaces this pre) element) post := by
      unfold scanInterfaces
      rw [List.foldl_append, List.foldl_cons]
    rw [h1, scanInterfaces_no_vendor pre hpre,
      scanAlternates_single_vendor element apre apost alt halts hapre hapost hclass,
      scanInterfaces_no_vendor post hpost]
  have hf := scanEndpoints_fields alt.endpoints
    { this with interfaceNumber := element.interfaceNumber }
  rw [hscan, hf.1, hf.2.1, hf.2.2, hin, hout]
  simp

theorem scan_single_vendor_interface_witness :
    (scanInterfaces (SerialPort.new .undefined .undefined)
      ([⟨0, [⟨2, []⟩]⟩] ++ ⟨3, [⟨255, [⟨"in", 3⟩, ⟨"out", 2⟩]⟩]⟩ :: [])).interfaceNumber = 3 ∧
    (scanInterfaces (SerialPort.new .undefined .undefined)
      ([⟨0, [⟨2, []⟩]⟩] ++ ⟨3, [⟨255, [⟨"in", 3⟩, ⟨"out", 2⟩]⟩]⟩ :: [])).endpointIn = 3 ∧
    (scanInterfaces (SerialPort.new .undefined .undefined)
      ([⟨0, [⟨2, []⟩]⟩] ++ ⟨3, [⟨255, [⟨"in", 3⟩, ⟨"out", 2⟩]⟩]⟩ :: [])).endpointOut = 2 :=
  scan_single_vendor_interface (SerialPort.new .undefined .undefined)
    [⟨0, [⟨2, []⟩]⟩] [] ⟨3, [⟨255, [⟨"in", 3⟩, ⟨"out", 2⟩]⟩]⟩ [] []
    ⟨255, [⟨"in", 3⟩, ⟨"out", 2⟩]⟩ ⟨"in", 3⟩ ⟨"out", 2⟩
    (by decide) (by decide) rfl (by decide) (by decide) rfl (by decide) (by decide)

/-! ## `close` -/

/-- C13, as stated, fails: on a connected session, when the host rejects the
control transfer that clears DTR, `close` ends by that error with the device
still held and the close callback not invoked. -/
theorem close_rejected_keeps_device :
    connectedSession.isConnected = true ∧
    (connectedSession.close envClear stalledHost none).outcome = .rejected networkError ∧
    (connectedSession.close envClear stalledHost none).session.device ≠ none ∧
    (connectedSession.close envClear stalledHost none).trace
      = [Event.host (.controlTransferOut "class" "interface" 0x22 0x00 3 none)] := by
  refine ⟨by decide, by decide, by decide, by decide⟩

/-- C13, amended: for every session, connected or not, and every `close` in
which the host accepts the calls that `close` makes, `close` resolves; the
host calls are exactly the class/interface control transfer with request
0x22, value 0x00, index `interfaceNumber` followed by the device close when
the session was connected, and none when it was not; then the close
callback (the one passed to `close`, else the registered one) is invoked
exactly once if there is one, on a session whose device is null and whose
other fields, `serialBuffer` included, are those at entry.  If the callbacks
leave device and buffer alone, the device is null and `serialBuffer` is
unchanged when `close` ends. -/
theorem close_clears_device_then_callback (env : Env) (host : Host) (this : SerialPort)
    (cb : Option Callback)
    (hhost : this.isConnected = true →
      host.rejects (.controlTransferOut "class" "interface" 0x22 0x00 this.interfaceNumber
        none) = none ∧ host.rejects .deviceClose = none) :
    (this.close env host cb).outcome = .resolved ∧
    (this.close env host cb).trace
      = (if this.isConnected = true then
          [Event.host (.controlTransferOut "class" "interface" 0x22 0x00
            this.interfaceNumber none), Event.host .deviceClose]
         else [])
        ++ (cb.or this.closeCallback).toList.map (fun f => Event.callback .close f .none) ∧
    (this.close env host cb).session
      = (match cb.or this.closeCallback with
         | some f =>
           env.run f .none
             { this with closeCallback := cb.or this.closeCallback, device := none }
         | none => { this with closeCallback := cb.or this.closeCallback, device := none }) ∧
    ((∀ f a s, (env.run f a s).device = s.device ∧
        (env.run f a s).serialBuffer = s.serialBuffer) →
      (this.close env host cb).session.device = none ∧
      (this.close env host cb).session.serialBuffer = this.serialBuffer) := by
  obtain ⟨bs, sb, sc, dev, inum, ein, eout, fl, ocb, dcb, ccb, ecb, lcb, ncb, rcb⟩ := this
  by_cases hc : SerialPort.isConnected
      ⟨bs, sb, sc, dev, inum, ein, eout, fl, ocb, dcb, ccb, ecb, lcb, ncb, rcb⟩ = true
  · obtain ⟨h1, h2⟩ := hhost hc
    simp only at h1 h2
    have hc1 : ∀ f, SerialPort.isConnected
        ⟨bs, sb, sc, dev, inum, ein, eout, fl, ocb, dcb, f, ecb, lcb, ncb, rcb⟩ = true := by
      intro f; simpa [SerialPort.isConnected] using hc
    unfold SerialPort.close
    cases cb <;> cases ccb <;>
      simp [hc, hc1, await, h1, h2, closeTail, Run.after, fire] <;>
      intro hframe <;> simp [(hframe _ _ _).1, (hframe _ _ _).2]
  · have hc1 : ∀ f, ¬ SerialPort.isConnected
        ⟨bs, sb, sc, dev, inum, ein, eout, fl, ocb, dcb, f, ecb, lcb, ncb, rcb⟩ = true := by
      intro f; simpa [SerialPort.isConnected] using hc
    unfold SerialPort.close
    cases cb <;> cases ccb <;>
      simp [hc, hc1, closeTail, fire] <;>
      intro hframe <;> simp [(hframe _ _ _).1, (hframe _ _ _).2]

theorem close_clears_device_then_callback_witness :
    (connectedSession.close envBufferSize sampleHost (some 6)).outcome = .resolved ∧
    (connectedSession.close envBufferSize sampleHost (some 6)).trace
      = [Event.host (.controlTransferOut "class" "interface" 0x22 0x00 3 none),
         Event.host .deviceClose, Event.callback .close 6 .none] ∧
    (connectedSession.close envBufferSize sampleHost (some 6)).session.device = none ∧
    (connectedSession.close envBufferSize sampleHost (some 6)).session.serialBuffer
      = [72, 105] :=
  ⟨(close_clears_device_then_callback envBufferSize sampleHost connectedSession (some 6)
      (fun _ => ⟨rfl, rfl⟩)).1,
   (close_clears_device_then_callback envBufferSize sampleHost connectedSession (some 6)
      (fun _ => ⟨rfl, rfl⟩)).2.1,
   ((close_clears_device_then_callback envBufferSize sampleHost connectedSession (some 6)
      (fun _ => ⟨rfl, rfl⟩)).2.2.2 (fun _ _ _ => ⟨rfl, rfl⟩)).1,
   ((close_clears_device_then_callback envBufferSize sampleHost connectedSession (some 6)
      (fun _ => ⟨rfl, rfl⟩)).2.2.2 (fun _ _ _ => ⟨rfl, rfl⟩)).2⟩

/-! ## `open` when a step on the device is rejected -/

theorem await_rejected (host : Host) (this : SerialPort) (c : HostCall) (k : Run)
    (e : JSError) (h : host.rejects c = some e) :
    await host this c k = ⟨this, [.host c], .rejected e⟩ := by
  unfold await
  rw [h]

theorem await_accepted (host : Host) (this : SerialPort) (c : HostCall) (k : Run)
    (h : host.rejects c = none) :
    await host this c k = k.after [.host c] := by
  unfold await
  rw [h]

theorem openConfigured_step_rejected (env : Env) (host : Host) (s : SerialPort)
    (configurationInterfaces : List Interface) (_baudRate : Int)
    (h : host.rejects
          (.claimInterface (scanInterfaces s configurationInterfaces).interfaceNumber) ≠ none ∨
        host.rejects (.selectAlternateInterface
          (scanInterfaces s configurationInterfaces).interfaceNumber 0) ≠ none ∨
        host.rejects (.controlTransferOut "class" "interface" 0x22 0x01
          (scanInterfaces s configurationInterfaces).interfaceNumber none) ≠ none ∨
        host.rejects (.controlTransferOut "class" "interface" 0x20 0x00
          (scanInterfaces s configurationInterfaces).interfaceNumber
          (some (baudData _baudRate))) ≠ none) :
    ∃ e, (openConfigured env host s configurationInterfaces _baudRate).outcome = .rejected e ∧
      (openConfigured env host s configurationInterfaces _baudRate).session
        = scanInterfaces s configurationInterfaces ∧
      (openConfigured env host s configurationInterfaces _baudRate).trace.all
        Event.isSetupCall = true := by
  unfold openConfigured
  dsimp only
  cases h1 : host.rejects
      (.claimInterface (scanInterfaces s configurationInterfaces).interfaceNumber) with
  | some e => rw [await_rejected _ _ _ _ e h1]; exact ⟨e, rfl, rfl, by simp [Event.isSetupCall]⟩
  | none =>
    rw [await_accepted _ _ _ _ h1]
    cases h2 : host.rejects (.selectAlternateInterface
        (scanInterfaces s configurationInterfaces).interfaceNumber 0) with
    | some e =>
      rw [await_rejected _ _ _ _ e h2]
      exact ⟨e, rfl, rfl, by simp [Run.after, Event.isSetupCall]⟩
    | none =>
      rw [await_accepted _ _ _ _ h2]
      cases h3 : host.rejects (.controlTransferOut "class" "interface" 0x22 0x01
          (scanInterfaces s configurationInterfaces).interfaceNumber none) with
      | some e =>
        rw [await_rejected _ _ _ _ e h3]
        exact ⟨e, rfl, rfl, by simp [Run.after, Event.isSetupCall]⟩
      | none =>
        rw [await_accepted _ _ _ _ h3]
        cases h4 : host.rejects (.controlTransferOut "class" "interface" 0x20 0x00
            (scanInterfaces s configurationInterfaces).interfaceNumber
            (some (baudData _baudRate))) with
        | some e =>
          rw [await_rejected _ _ _ _ e h4]
          exact ⟨e, rfl, rfl, by simp [Run.after, Event.isSetupCall]⟩
        | none =>
          rw [h1, h2, h3, h4] at h
          simp at h

theorem openConfigured_step_rejected_from (env : Env) (host : Host) (this : SerialPort)
    (dev : Device) (f : Option Callback)
    (configurationInterfaces : List Interface) (_baudRate : Int)
    (h : host.rejects
          (.claimInterface (scanInterfaces this configurationInterfaces).interfaceNumber) ≠ none ∨
        host.rejects (.selectAlternateInterface
          (scanInterfaces this configurationInterfaces).interfaceNumber 0) ≠ none ∨
        host.rejects (.controlTransferOut "class" "interface" 0x22 0x01
          (scanInterfaces this configurationInterfaces).interfaceNumber none) ≠ none ∨
        host.rejects (.controlTransferOut "class" "interface" 0x20 0x00
          (scanInterfaces this configurationInterfaces).interfaceNumber
          (some (baudData _baudRate))) ≠ none) :
    ∃ e,
      (openConfigured env host { this with device := some dev, openCallback := f }
        configurationInterfaces _baudRate).outcome = .rejected e ∧
      (openConfigured env host { this with device := some dev, openCallback := f }
        configurationInterfaces _baudRate).session.device = some dev ∧
      (openConfigured env host { this with device := some dev, openCallback := f }
        configurationInterfaces _baudRate).trace.all Event.isSetupCall = true := by
  have hu := scanInterfaces_update (some dev) f configurationInterfaces this
  have h2 : host.rejects (.claimInterface (scanInterfaces
        { this with device := some dev, openCallback := f }
        configurationInterfaces).interfaceNumber) ≠ none ∨
      host.rejects (.selectAlternateInterface (scanInterfaces
        { this with device := some dev, openCallback := f }
        configurationInterfaces).interfaceNumber 0) ≠ none ∨
      host.rejects (.controlTransferOut "class" "interface" 0x22 0x01 (scanInterfaces
        { this with device := some dev, openCallback := f }
        configurationInterfaces).interfaceNumber none) ≠ none ∨
      host.rejects (.controlTransferOut "class" "interface" 0x20 0x00 (scanInterfaces
        { this with device := some dev, openCallback := f }
        configurationInterfaces).interfaceNumber (some (baudData _baudRate))) ≠ none := by
    rw [hu]; exact h
  obtain ⟨e, ho, hs, ht⟩ := openConfigured_step_rejected env host _ _ _baudRate h2
  exact ⟨e, ho, by rw [hs, hu], ht⟩

theorem openDevice_step_rejected (env : Env) (host : Host) (this : SerialPort) (d : Device)
    (f : Option Callback) (_baudRate : Int)
    (hfail : host.rejects .deviceOpen ≠ none ∨
      (d.configuration = none ∧ host.rejects (.selectConfiguration 1) ≠ none) ∨
      (∃ conf : Configuration,
        (d.configuration = some conf ∨
          (d.configuration = none ∧
            d.configurations.find? (fun c => c.configurationValue = 1) = some conf)) ∧
        (host.rejects
            (.claimInterface (scanInterfaces this conf.interfaces).interfaceNumber) ≠ none ∨
          host.rejects (.selectAlternateInterface
            (scanInterfaces this conf.interfaces).interfaceNumber 0) ≠ none ∨
          host.rejects (.controlTransferOut "class" "interface" 0x22 0x01
            (scanInterfaces this conf.interfaces).interfaceNumber none) ≠ none ∨
          host.rejects (.controlTransferOut "class" "interface" 0x20 0x00
            (scanInterfaces this conf.interfaces).interfaceNumber
            (some (baudData _baudRate))) ≠ none))) :
    ∃ e dev,
      (openDevice env host { this with device := some d, openCallback := f } d
        _baudRate).outcome = .rejected e ∧
      (openDevice env host { this with device := some d, openCallback := f } d
        _baudRate).session.device = some dev ∧
      (openDevice env host { this with device := some d, openCallback := f } d
        _baudRate).trace.all Event.isSetupCall = true := by
  unfold openDevice
  cases h0 : host.rejects .deviceOpen with
  | some e =>
    rw [await_rejected _ _ _ _ e h0]
    exact ⟨e, d, rfl, rfl, by simp [Event.isSetupCall]⟩
  | none =>
    rw [await_accepted _ _ _ _ h0]
    dsimp only
    cases hc : d.configuration with
    | some conf =>
      simp only []
      have hstep : host.rejects
            (.claimInterface (scanInterfaces this conf.interfaces).interfaceNumber) ≠ none ∨
          host.rejects (.selectAlternateInterface
            (scanInterfaces this conf.interfaces).interfaceNumber 0) ≠ none ∨
          host.rejects (.controlTransferOut "class" "interface" 0x22 0x01
            (scanInterfaces this conf.interfaces).interfaceNumber none) ≠ none ∨
          host.rejects (.controlTransferOut "class" "interface" 0x20 0x00
            (scanInterfaces this conf.interfaces).interfaceNumber
            (some (baudData _baudRate))) ≠ none := by
        rcases hfail with h | ⟨h, _⟩ | ⟨conf2, hact, hst⟩
        · exact absurd h0 h
        · rw [hc] at h; cases h
        · rcases hact with h | ⟨h, _⟩
          · rw [hc] at h; cases h; exact hst
          · rw [hc] at h; cases h
      obtain ⟨e, ho, hs, ht⟩ := openConfigured_step_rejected_from env host this
        ⟨true, some conf, d.configurations⟩ f conf.interfaces _baudRate hstep
      exact ⟨e, ⟨true, some conf, d.configurations⟩, by simpa [Run.after] using ho,
        by simpa [Run.after] using hs, by simpa [Run.after, Event.isSetupCall] using ht⟩
    | none =>
      simp only []
      cases h1 : host.rejects (.selectConfiguration 1) with
      | some e =>
        rw [await_rejected _ _ _ _ e h1]
        exact ⟨e, _, rfl, rfl, by simp [Run.after, Event.isSetupCall]⟩
      | none =>
        rw [await_accepted _ _ _ _ h1]
        cases hf : d.configurations.find? (fun c => c.configurationValue = 1) with
        | none =>
          simp only [hf]
          exact ⟨typeError, _, rfl, rfl, by simp [Run.after, Event.isSetupCall]⟩
        | some conf =>
          simp only [hf]
          have hstep : host.rejects
                (.claimInterface (scanInterfaces this conf.interfaces).interfaceNumber) ≠ none ∨
              host.rejects (.selectAlternateInterface
                (scanInterfaces this conf.interfaces).interfaceNumber 0) ≠ none ∨
              host.rejects (.controlTransferOut "class" "interface" 0x22 0x01
                (scanInterfaces this conf.interfaces).interfaceNumber none) ≠ none ∨
              host.rejects (.controlTransferOut "class" "interface" 0x20 0x00
                (scanInterfaces this conf.interfaces).interfaceNumber
                (some (baudData _baudRate))) ≠ none := by
            rcases hfail with h | ⟨_, h⟩ | ⟨conf2, hact, hst⟩
            · exact absurd h0 h
            · exact absurd h1 h
            · rcases hact with h | ⟨_, h⟩
              · rw [hc] at h; cases h
              · rw [hf] at h; cases h; exact hst
          obtain ⟨e, ho, hs, ht⟩ := openConfigured_step_rejected_from env host this
            ⟨true, some conf, d.configurations⟩ f conf.interfaces _baudRate hstep
          exact ⟨e, ⟨true, some conf, d.configurations⟩,
            by simpa [Run.after] using ho, by simpa [Run.after] using hs,
            by simpa [Run.after, Event.isSetupCall] using ht⟩

/-- C14, as stated, fails: when the host grants a device and then rejects
`claimInterface`, `open` ends by that error and the session still holds the
device. -/
theorem open_failed_claim_keeps_device :
    (SerialPort.new .undefined .undefined).device = none ∧
    ((SerialPort.new .undefined .undefined).open_ envClear busyHost none none none).outcome
      = .rejected networkError ∧
    ((SerialPort.new .undefined .undefined).open_ envClear busyHost none none none).session.device
      = some { sampleDevice with
          opened := true
          configuration := sampleDevice.configurations.head? } ∧
    ((SerialPort.new .undefined .undefined).open_ envClear busyHost none none none).session.device
      ≠ none := by
  refine ⟨by decide, by decide, by decide, by decide⟩

/-- C14, amended: for every run of `open` on a session without a device in
which the host hands over a device `d` and then rejects a later step (the
device open, `selectConfiguration(1)` when it is made, `claimInterface`,
`selectAlternateInterface` or either control transfer), `open` ends by an
error, every event of its trace is a host call other than `transferIn` (no
callback is invoked and the read loop is not started), and the session
still holds a device: the device reference is not cleared. -/
theorem open_failed_step_keeps_device (env : Env) (host : Host) (this : SerialPort)
    (_autoConnect : Option Bool) (_baudRate : Option Int) (cb : Option Callback)
    (d : Device)
    (hnodev : this.device = none)
    (hsel :
      (_autoConnect.getD true = true ∧ ∃ ds, host.getDevices = .ok (d :: ds)) ∨
      ((_autoConnect.getD true = false ∨ host.getDevices = .ok []) ∧
        host.requestDevice this.filters = .ok d))
    (hfail : host.rejects .deviceOpen ≠ none ∨
      (d.configuration = none ∧ host.rejects (.selectConfiguration 1) ≠ none) ∨
      (∃ conf : Configuration,
        (d.configuration = some conf ∨
          (d.configuration = none ∧
            d.configurations.find? (fun c => c.configurationValue = 1) = some conf)) ∧
        (host.rejects
            (.claimInterface (scanInterfaces this conf.interfaces).interfaceNumber) ≠ none ∨
          host.rejects (.selectAlternateInterface
            (scanInterfaces this conf.interfaces).interfaceNumber 0) ≠ none ∨
          host.rejects (.controlTransferOut "class" "interface" 0x22 0x01
            (scanInterfaces this conf.interfaces).interfaceNumber none) ≠ none ∨
          host.rejects (.controlTransferOut "class" "interface" 0x20 0x00
            (scanInterfaces this conf.interfaces).interfaceNumber
            (some (baudData (_baudRate.getD 9600)))) ≠ none))) :
    ∃ e dev,
      (this.open_ env host _autoConnect _baudRate cb).outcome = .rejected e ∧
      (this.open_ env host _autoConnect _baudRate cb).session.device = some dev ∧
      (this.open_ env host _autoConnect _baudRate cb).trace.all Event.isSetupCall = true := by
  obtain ⟨e, dev, ho, hs, ht⟩ := openDevice_step_rejected env host this d
    (cb.or this.openCallback) (_baudRate.getD 9600) hfail
  refine ⟨e, dev, ?_⟩
  cases cb with
  | none =>
    have hor : (none : Option Callback).or this.openCallback = this.openCallback := rfl
    rw [hor] at ho hs ht
    unfold SerialPort.open_
    simp only [hnodev]
    rcases hsel with ⟨ha, ds, hgd⟩ | ⟨hask, hr⟩
    · simp only [ha, hgd, if_true, openSelect, Run.after]
      exact ⟨ho, hs, by simpa [Event.isSetupCall] using ht⟩
    · by_cases ha : _autoConnect.getD true = true
      · have hgd : host.getDevices = .ok [] := by
          rcases hask with h | h
          · rw [ha] at h; cases h
          · exact h
        simp only [ha, hgd, if_true, openSelect, hnodev, hr, Run.after]
        exact ⟨ho, hs, by simpa [Event.isSetupCall] using ht⟩
      · simp only [ha, if_false, openSelect, hnodev, hr, Run.after]
        exact ⟨ho, hs, by simpa [Event.isSetupCall] using ht⟩
  | some f =>
    have hor : (some f : Option Callback).or this.openCallback = some f := rfl
    rw [hor] at ho hs ht
    unfold SerialPort.open_
    simp only [hnodev]
    rcases hsel with ⟨ha, ds, hgd⟩ | ⟨hask, hr⟩
    · simp only [ha, hgd, if_true, openSelect, Run.after]
      exact ⟨ho, hs, by simpa [Event.isSetupCall] using ht⟩
    · by_cases ha : _autoConnect.getD true = true
      · have hgd : host.getDevices = .ok [] := by
          rcases hask with h | h
          · rw [ha] at h; cases h
          · exact h
        simp only [ha, hgd, if_true, openSelect, hnodev, hr, Run.after]
        exact ⟨ho, hs, by simpa [Event.isSetupCall] using ht⟩
      · simp only [ha, if_false, openSelect, hnodev, hr, Run.after]
        exact ⟨ho, hs, by simpa [Event.isSetupCall] using ht⟩

theorem open_failed_step_keeps_device_witness :
    ∃ e dev,
      ((SerialPort.new .undefined .undefined).open_ envClear stalledHost (some false)
        (some 115200) (some 7)).outcome = .rejected e ∧
      ((SerialPort.new .undefined .undefined).open_ envClear stalledHost (some false)
        (some 115200) (some 7)).session.device = some dev ∧
      ((SerialPort.new .undefined .undefined).open_ envClear stalledHost (some false)
        (some 115200) (some 7)).trace.all Event.isSetupCall = true :=
  open_failed_step_keeps_device envClear stalledHost (SerialPort.new .undefined .undefined)
    (some false) (some 115200) (some 7) sampleDevice rfl
    (Or.inr ⟨Or.inl rfl, rfl⟩)
    (Or.inr (Or.inr ⟨⟨1, [⟨0, [⟨2, []⟩]⟩, ⟨3, [⟨255, [⟨"in", 3⟩, ⟨"out", 2⟩]⟩]⟩]⟩,
      Or.inr ⟨rfl, rfl⟩, Or.inr (Or.inr (Or.inl (by decide)))⟩))

/-! ## `last`, `readString`, `readLine` -/

/-- C15: `last()` returns the final element of the buffer, the last byte in
arrival order, or `undefined` if the buffer was empty, and the buffer is
empty after the call, every other field being untouched. -/
theorem last_returns_final_and_clears (this : SerialPort) (front : List Nat) (b : Nat) :
    ({ this with serialBuffer := front ++ [b] }).last
      = (some b, { this with serialBuffer := [] }) ∧
    ({ this with serialBuffer := [] }).last = (none, { this with serialBuffer := [] }) ∧
    this.last.2.serialBuffer = [] ∧
    this.last.1 = this.serialBuffer.getLast? := by
  refine ⟨?_, rfl, rfl, rfl⟩
  simp [SerialPort.last]

/-- C16: `readString()` returns one character per byte, in arrival order: the
string has the length of the buffer and its i-th character is the i-th
element through `String.fromCharCode`, which for a byte (0..255) is the
character whose code is that byte; on an empty buffer it returns the empty
string; in both cases the buffer is empty afterwards. -/
theorem readString_one_char_per_byte (this : SerialPort) :
    this.readString
      = (this.serialBuffer.map (fun b => b % 65536), { this with serialBuffer := [] }) ∧
    this.readString.1.length = this.serialBuffer.length ∧
    ((∀ b ∈ this.serialBuffer, b < 256) →
      this.readString.1 = this.serialBuffer ∧
      ∀ i (h : i < this.serialBuffer.length), this.readString.1.get? i
        = some (this.serialBuffer.get ⟨i, h⟩)) ∧
    ({ this with serialBuffer := [] }).readString = (lit "", { this with serialBuffer := [] }) := by
  refine ⟨?_, ?_, ?_, rfl⟩
  · unfold SerialPort.readString
    rw [decodeBuffer_eq_map]
  · unfold SerialPort.readString
    exact decodeBuffer_length _
  · intro hb
    have h : this.readString.1 = this.serialBuffer := by
      unfold SerialPort.readString
      exact decodeBuffer_bytes _ hb
    refine ⟨h, ?_⟩
    intro i hi
    rw [h]
    exact List.get?_eq_get hi

theorem readString_one_char_per_byte_witness :
    ({ SerialPort.new .undefined .undefined with serialBuffer := [72, 105, 255] }).readString.1
      = [72, 105, 255] :=
  ((readString_one_char_per_byte
    { SerialPort.new .undefined .undefined with serialBuffer := [72, 105, 255] }).2.2.1
    (by decide)).1

theorem not_singleton_prefix_drop (c : Nat) (xs : List Nat) (h : c ∉ xs) (j : Nat) :
    ¬ [c] <+: xs.drop j := by
  intro hp
  obtain ⟨t, ht⟩ := hp
  have hmem : c ∈ xs.drop j := by rw [← ht]; simp
  exact h (List.mem_of_mem_drop hmem)

theorem not_singleton_prefix_drop_append (c : Nat) (xs ys : List Nat) (h : c ∉ xs)
    (j : Nat) (hj : j < xs.length) : ¬ [c] <+: (xs ++ c :: ys).drop j := by
  intro hp
  obtain ⟨t, ht⟩ := hp
  rw [List.drop_append_of_le_length (Nat.le_of_lt hj)] at ht
  have hne : xs.drop j ≠ [] := by
    intro he
    have := congrArg List.length he
    simp at this
    omega
  obtain ⟨y, ys2, hy⟩ := List.exists_cons_of_ne_nil hne
  rw [hy] at ht
  simp only [List.singleton_append, List.cons_append, List.cons.injEq] at ht
  have hmem : y ∈ xs := List.mem_of_mem_drop (by rw [hy]; simp)
  exact h (ht.1 ▸ hmem)

/-- C17: for a buffer of bytes holding `s1`, a newline and `s2`, where neither
`s1` nor `s2` contains a newline, the first `readLine()` returns `s1` and
leaves exactly `s2` in the buffer, and a second `readLine()` returns the
empty string and leaves `s2` in the buffer. -/
theorem readLine_then_empty (this : SerialPort) (s1 s2 : List Nat)
    (h1 : 10 ∉ s1) (h2 : 10 ∉ s2) (hb : ∀ b ∈ s1 ++ 10 :: s2, b < 256) :
    ({ this with serialBuffer := s1 ++ 10 :: s2 }).readLine
      = (s1, { this with serialBuffer := s2 }) ∧
    (({ this with serialBuffer := s1 ++ 10 :: s2 }).readLine.2).readLine
      = (lit "", { this with serialBuffer := s2 }) := by
  have hnl : lit "\n" = [10] := by decide
  have hb2 : ∀ b ∈ s2, b < 256 := fun b hm => hb b (by simp [hm])
  have hfirst : ({ this with serialBuffer := s1 ++ 10 :: s2 }).readLine
      = (s1, { this with serialBuffer := s2 }) := by
    unfold SerialPort.readLine SerialPort.readStringUntil
    simp only [hnl, decodeBuffer_bytes _ hb]
    have hk : [10] <+: (s1 ++ 10 :: s2).drop s1.length := by
      rw [List.drop_left]
      exact ⟨s2, rfl⟩
    have hi := stringIndexOf_first [10] (s1 ++ 10 :: s2) s1.length hk
      (fun j hj => not_singleton_prefix_drop_append 10 s1 s2 h1 j hj)
    rw [hi]
    have hpos : ((s1.length : Int) > -1) := by omega
    rw [if_pos hpos]
    have hs := sliceFrom_natCast (s1 ++ 10 :: s2) (s1.length + 1)
    simp only [Nat.cast_add, Nat.cast_one, List.length_singleton] at hs ⊢
    rw [hs]
    simp [substr0]
  refine ⟨hfirst, ?_⟩
  rw [hfirst]
  unfold SerialPort.readLine SerialPort.readStringUntil
  simp only [hnl, decodeBuffer_bytes _ hb2]
  rw [stringIndexOf_absent [10] s2 (fun k => not_singleton_prefix_drop 10 s2 h2 k)]
  rfl

theorem readLine_then_empty_witness :
    ({ SerialPort.new .undefined .undefined with
        serialBuffer := [65, 66] ++ 10 :: [67, 68] }).readLine
      = ([65, 66], { SerialPort.new .undefined .undefined with serialBuffer := [67, 68] }) ∧
    (({ SerialPort.new .undefined .undefined with
        serialBuffer := [65, 66] ++ 10 :: [67, 68] }).readLine.2).readLine
      = (lit "", { SerialPort.new .undefined .undefined with serialBuffer := [67, 68] }) :=
  readLine_then_empty (SerialPort.new .undefined .undefined) [65, 66] [67, 68]
    (by decide) (by decide) (by decide)

/-! ## `on` and the constructor -/

/-- C18: for each of the event names open, data, close, error, list,
connected and rawdata, `on(e, cb)` sets exactly the slot of that name to `cb`
and leaves every other field as it was; a second registration for the same
name replaces the first; for every other event name `on` leaves the whole
session unchanged. -/
theorem on_sets_exactly_one_slot (this : SerialPort) (cb : Option Callback) :
    this.on "open" cb = { this with openCallback := cb } ∧
    this.on "data" cb = { this with dataCallback := cb } ∧
    this.on "close" cb = { this with closeCallback := cb } ∧
    this.on "error" cb = { this with errorCallback := cb } ∧
    this.on "list" cb = { this with listCallback := cb } ∧
    this.on "connected" cb = { this with connectedCallback := cb } ∧
    this.on "rawdata" cb = { this with rawDataCallback := cb } ∧
    (∀ (e : String) (first : Option Callback), (this.on e first).on e cb = this.on e cb) ∧
    (∀ e : String, e ≠ "open" → e ≠ "data" → e ≠ "close" → e ≠ "error" → e ≠ "list" →
      e ≠ "connected" → e ≠ "rawdata" → this.on e cb = this) := by
  refine ⟨?_, ?_, ?_, ?_, ?_, ?_, ?_, ?_, ?_⟩
  · simp [SerialPort.on]
  · simp [SerialPort.on]
  · simp [SerialPort.on]
  · simp [SerialPort.on]
  · simp [SerialPort.on]
  · simp [SerialPort.on]
  · simp [SerialPort.on]
  · intro e first
    unfold SerialPort.on
    split_ifs <;> rfl
  · intro e h1 h2 h3 h4 h5 h6 h7
    simp [SerialPort.on, h1, h2, h3, h4, h5, h6, h7]

theorem on_sets_exactly_one_slot_witness :
    (SerialPort.new .undefined .undefined).on "registerClient" (some 4)
      = SerialPort.new .undefined .undefined :=
  (on_sets_exactly_one_slot (SerialPort.new .undefined .undefined) (some 4)).2.2.2.2.2.2.2.2
    "registerClient" (by decide) (by decide) (by decide) (by decide) (by decide)
    (by decide) (by decide)

/-- C19: the constructor appends the entry `{vendorId: vid, productId: pid}`
to the default filter table exactly when both arguments are numbers, and
otherwise leaves the default table as it is; in both cases the session
starts inert: no device, an empty `serialBuffer` and `bufferSize` 1. -/
theorem constructor_filters_and_inert (_vid _pid : JSValue) :
    (∀ vid pid : Int, _vid = .number vid → _pid = .number pid →
      (SerialPort.new _vid _pid).filters = defaultFilters ++ [⟨vid, some pid⟩]) ∧
    ((¬ ∃ vid, _vid = .number vid) ∨ (¬ ∃ pid, _pid = .number pid) →
      (SerialPort.new _vid _pid).filters = defaultFilters) ∧
    (SerialPort.new _vid _pid).device = none ∧
    (SerialPort.new _vid _pid).serialBuffer = [] ∧
    (SerialPort.new _vid _pid).bufferSize = 1 := by
  refine ⟨?_, ?_, rfl, rfl, rfl⟩
  · intro vid pid hv hp
    subst hv hp
    rfl
  · intro h
    cases _vid <;> cases _pid <;> simp [SerialPort.new] at h ⊢

theorem constructor_filters_and_inert_witness :
    (SerialPort.new (.number 0x2341) (.number 0x0043)).filters
      = defaultFilters ++ [⟨0x2341, some 0x0043⟩] ∧
    (SerialPort.new (.number 0x2341) .undefined).filters = defaultFilters :=
  ⟨(constructor_filters_and_inert (.number 0x2341) (.number 0x0043)).1 0x2341 0x0043 rfl rfl,
   (constructor_filters_and_inert (.number 0x2341) .undefined).2.1
     (Or.inr (by simp))⟩

/-! ## `available` along a sequence of operations -/

theorem slice_length_le {α : Type} (xs : List α) (start stop : Int) :
    (slice xs start stop).length ≤ xs.length := by
  unfold slice
  rw [List.length_drop, List.length_take]
  omega

/-- An accessor call never makes the buffer longer. -/
theorem accessor_length_le (op : BufferOp) (s : SerialPort) (h : ∀ e, op ≠ .push e) :
    (op.apply s).serialBuffer.length ≤ s.serialBuffer.length := by
  cases op with
  | push e => exact absurd rfl (h e)
  | read =>
    simp only [BufferOp.apply, SerialPort.read]
    split <;> simp_all
  | readChar =>
    simp only [BufferOp.apply, SerialPort.readChar]
    split <;> simp_all
  | readBytes =>
    simp only [BufferOp.apply, SerialPort.readBytes]
    split <;> simp
  | readBytesUntil c =>
    simp only [BufferOp.apply, SerialPort.readBytesUntil]
    split
    · exact slice_length_le _ _ _
    · exact le_refl _
  | readString => simp [BufferOp.apply, SerialPort.readString]
  | readStringUntil m =>
    simp only [BufferOp.apply, SerialPort.readStringUntil]
    split
    · exact slice_length_le _ _ _
    · exact le_refl _
  | readLine =>
    simp only [BufferOp.apply, SerialPort.readLine, SerialPort.readStringUntil]
    split
    · exact slice_length_le _ _ _
    · exact le_refl _
  | last => simp [BufferOp.apply, SerialPort.last]
  | lastChar =>
    simp only [BufferOp.apply, SerialPort.lastChar, SerialPort.last]
    split <;> simp
  | clear => simp [BufferOp.apply, SerialPort.clear]
  | available => simp [BufferOp.apply]

theorem apply_length (op : BufferOp) (s : SerialPort) :
    (op.apply s).serialBuffer.length + op.removed s
      = s.serialBuffer.length + op.appended := by
  by_cases h : ∃ e, op = .push e
  · obtain ⟨e, rfl⟩ := h
    simp [BufferOp.apply, BufferOp.removed, BufferOp.appended]
  · have hacc : ∀ e, op ≠ .push e := fun e he => h ⟨e, he⟩
    have hle := accessor_length_le op s hacc
    have hrem : op.removed s = s.serialBuffer.length - (op.apply s).serialBuffer.length := by
      cases op <;> first | rfl | exact absurd rfl (hacc _)
    have happ : op.appended = 0 := by
      cases op <;> first | rfl | exact absurd rfl (hacc _)
    rw [hrem, happ]
    omega

theorem runOps_length (ops : List BufferOp) (s : SerialPort) :
    (runOps ops s).1.serialBuffer.length + (runOps ops s).2.2
      = s.serialBuffer.length + (runOps ops s).2.1 := by
  induction ops generalizing s with
  | nil => simp [runOps]
  | cons op ops ih =>
    have h1 := ih (op.apply s)
    have h2 := apply_length op s
    simp only [runOps]
    omega

/-- C20: along every finite sequence of read-loop appends and accessor calls
that starts from an empty buffer, `available()` equals the number of bytes
appended minus the number of bytes the accessor calls removed; no accessor
call ever adds a byte, so the removed bytes are exactly the drop in length
of each call; and `available()` leaves the session as it is. -/
theorem available_is_appended_minus_removed (ops : List BufferOp) (s : SerialPort)
    (hempty : s.serialBuffer = []) :
    (runOps ops s).1.available = (runOps ops s).2.1 - (runOps ops s).2.2 ∧
    (runOps ops s).2.2 ≤ (runOps ops s).2.1 ∧
    (∀ (op : BufferOp) (t : SerialPort), (∀ e, op ≠ .push e) →
      (op.apply t).serialBuffer.length ≤ t.serialBuffer.length) ∧
    (∀ t : SerialPort, BufferOp.available.apply t = t) := by
  have h := runOps_length ops s
  rw [hempty] at h
  simp only [List.length_nil, Nat.zero_add] at h
  refine ⟨?_, ?_, accessor_length_le, fun _ => rfl⟩
  · unfold SerialPort.available
    omega
  · omega

theorem available_is_appended_minus_removed_witness :
    (runOps [.push 65, .push 66, .push 10, .push 67, .available, .readLine, .read,
        .readBytesUntil (lit "C"), .push 68, .last, .push 69]
      (SerialPort.new .undefined .undefined)).1.available
      = (runOps [.push 65, .push 66, .push 10, .push 67, .available, .readLine, .read,
          .readBytesUntil (lit "C"), .push 68, .last, .push 69]
        (SerialPort.new .undefined .undefined)).2.1
        - (runOps [.push 65, .push 66, .push 10, .push 67, .available, .readLine, .read,
          .readBytesUntil (lit "C"), .push 68, .last, .push 69]
        (SerialPort.new .undefined .undefined)).2.2 :=
  (available_is_appended_minus_removed
    [.push 65, .push 66, .push 10, .push 67, .available, .readLine, .read,
      .readBytesUntil (lit "C"), .push 68, .last, .push 69]
    (SerialPort.new .undefined .undefined) rfl).1

/-! ## Several vendor-class alternates -/

/-- The scan of an interface whose last vendor-class alternate is `alt`: the
endpoint loop of `alt` runs last, on whatever the earlier alternates left. -/
theorem scanAlternates_last_vendor (element : Interface) (apre apost : List Alternate)
    (alt : Alternate) (halts : element.alternates = apre ++ alt :: apost)
    (hapost : ∀ a ∈ apost, a.interfaceClass ≠ 0xff)
    (hclass : alt.interfaceClass = 0xff) (s : SerialPort) :
    ∃ t : SerialPort, scanAlternates s element
      = scanEndpoints { t with interfaceNumber := element.interfaceNumber } alt.endpoints := by
  unfold scanAlternates
  rw [halts, List.foldl_append]
  simp only [List.foldl_cons, hclass, if_true]
  exact ⟨_, foldl_alternates_no_vendor _ apost hapost _⟩

/-- When the last vendor-class alternate in scan order has an endpoint of each
direction, all three numbers come from it. -/
theorem scanInterfaces_last_vendor (this : SerialPort) (pre post : List Interface)
    (element : Interface) (apre apost : List Alternate) (alt : Alternate)
    (ein eout : Endpoint)
    (hpost : ∀ x ∈ post, ∀ a ∈ x.alternates, a.interfaceClass ≠ 0xff)
    (halts : element.alternates = apre ++ alt :: apost)
    (hapost : ∀ a ∈ apost, a.interfaceClass ≠ 0xff)
    (hclass : alt.interfaceClass = 0xff)
    (hin : (alt.endpoints.filter (fun e => e.direction = "in")).getLast? = some ein)
    (hout : (alt.endpoints.filter (fun e => e.direction = "out")).getLast? = some eout) :
    (scanInterfaces this (pre ++ element :: post)).interfaceNumber = element.interfaceNumber ∧
    (scanInterfaces this (pre ++ element :: post)).endpointIn = ein.endpointNumber ∧
    (scanInterfaces this (pre ++ element :: post)).endpointOut = eout.endpointNumber := by
  have h1 : scanInterfaces this (pre ++ element :: post)
      = scanInterfaces (scanAlternates (scanInterfaces this pre) element) post := by
    unfold scanInterfaces
    rw [List.foldl_append, List.foldl_cons]
  obtain ⟨t, ht⟩ := scanAlternates_last_vendor element apre apost alt halts hapost hclass
    (scanInterfaces this pre)
  have hf := scanEndpoints_fields alt.endpoints
    { t with interfaceNumber := element.interfaceNumber }
  rw [h1, scanInterfaces_no_vendor post hpost, ht, hf.1, hf.2.1, hf.2.2, hin, hout]
  simp

/-- C21: on a configuration with two vendor-class interfaces, interface 1
with endpoints in 3 / out 2 and then interface 2 with the single endpoint
out 4, the scan ends with `interfaceNumber` 2 and `endpointOut` 4 from the
last match but with `endpointIn` 3, the "in" endpoint of the earlier match. -/
theorem scan_keeps_endpoint_of_earlier_match :
    (scanInterfaces (SerialPort.new .undefined .undefined) mixedInterfaces).interfaceNumber = 2 ∧
    (scanInterfaces (SerialPort.new .undefined .undefined) mixedInterfaces).endpointOut = 4 ∧
    (scanInterfaces (SerialPort.new .undefined .undefined) mixedInterfaces).endpointIn = 3 := by
  refine ⟨by decide, by decide, by decide⟩

/-! ## The buffer after `readBytesUntil` -/

/-- The removal slice of `readBytesUntil`: its end `length + index` is clamped
to the length, so what stays is the buffer from the marker on. -/
theorem readBytesUntil_session_after (this : SerialPort) (c : Nat) (more : JSString)
    (pre post : List Nat) (hbuf : this.serialBuffer = pre ++ c :: post) (hpre : c ∉ pre) :
    (this.readBytesUntil (c :: more)).2 = { this with serialBuffer := c :: post } := by
  unfold SerialPort.readBytesUntil
  simp only [charCodeAt, List.get?_cons_zero, hbuf, arrayIndexOf_first pre post c hpre]
  have hne : ((pre.length : Int) ≠ -1) := by omega
  rw [if_pos hne]
  have h := slice_natCast (pre ++ c :: post) pre.length
    ((pre ++ c :: post).length + pre.length)
  rw [Nat.cast_add] at h
  rw [h, List.take_of_length_le (Nat.le_add_right _ _), List.drop_left]

/-- C22, as stated, fails: on the buffer `"AB\nCD"` the first newline is at
index 2 and after `readBytesUntil("\n")` the buffer is `[10, 67, 68]`, not
empty. -/
theorem readBytesUntil_remainder_not_empty :
    arrayIndexOf [65, 66, 10, 67, 68] (charCodeAt (lit "\n") 0) = 2 ∧
    (({ SerialPort.new .undefined .undefined with
        serialBuffer := [65, 66, 10, 67, 68] }).readBytesUntil (lit "\n")).2.serialBuffer
      = [10, 67, 68] ∧
    (({ SerialPort.new .undefined .undefined with
        serialBuffer := [65, 66, 10, 67, 68] }).readBytesUntil (lit "\n")).2.serialBuffer
      ≠ [] := by
  refine ⟨by decide, by decide, by decide⟩

/-- C22, amended: for every buffer in which the marker byte occurs, the end
`length + index` of the removal slice used by `readBytesUntil` is not out
of range in effect: it is clamped to the length of the buffer, so the slice
is not cut short.  The bytes before the marker are removed and every byte
that followed the marker stays in the buffer, in order, as its tail; the
buffer is therefore not empty whenever bytes followed the marker. -/
theorem readBytesUntil_slice_end_clamped (this : SerialPort) (c : Nat) (more : JSString)
    (pre post : List Nat) (hbuf : this.serialBuffer = pre ++ c :: post) (hpre : c ∉ pre) :
    arrayIndexOf this.serialBuffer (charCodeAt (c :: more) 0) = (pre.length : Int) ∧
    sliceIndex this.serialBuffer.length
      ((this.serialBuffer.length : Int) + (pre.length : Int)) = this.serialBuffer.length ∧
    post <:+ (this.readBytesUntil (c :: more)).2.serialBuffer ∧
    (this.readBytesUntil (c :: more)).2.serialBuffer <:+ c :: post ∧
    (post ≠ [] → (this.readBytesUntil (c :: more)).2.serialBuffer ≠ []) := by
  have hafter := readBytesUntil_session_after this c more pre post hbuf hpre
  refine ⟨?_, ?_, ?_, ?_, ?_⟩
  · rw [hbuf]
    exact arrayIndexOf_first pre post c hpre
  · have h := sliceIndex_natCast this.serialBuffer.length
      (this.serialBuffer.length + pre.length)
    rw [Nat.cast_add] at h
    rw [h]
    omega
  · rw [hafter]
    exact ⟨[c], rfl⟩
  · rw [hafter]
  · intro _
    rw [hafter]
    simp

theorem readBytesUntil_slice_end_clamped_witness :
    [67, 68] <:+ (({ SerialPort.new .undefined .undefined with
        serialBuffer := [65, 66] ++ 10 :: [67, 68] }).readBytesUntil (10 :: [])).2.serialBuffer ∧
    (({ SerialPort.new .undefined .undefined with
        serialBuffer := [65, 66] ++ 10 :: [67, 68] }).readBytesUntil (10 :: [])).2.serialBuffer
      ≠ [] :=
  ⟨(readBytesUntil_slice_end_clamped
      { SerialPort.new .undefined .undefined with serialBuffer := [65, 66] ++ 10 :: [67, 68] }
      10 [] [65, 66] [67, 68] rfl (by decide)).2.2.1,
   (readBytesUntil_slice_end_clamped
      { SerialPort.new .undefined .undefined with serialBuffer := [65, 66] ++ 10 :: [67, 68] }
      10 [] [65, 66] [67, 68] rfl (by decide)).2.2.2.2 (by decide)⟩

/-- C25: when the marker byte occurs in the buffer, after one `readBytesUntil`
call the buffer begins with the marker byte; every further `readBytesUntil`
call with the same marker returns exactly `[marker]` and leaves the session
as it is, however many such calls were made before. -/
theorem readBytesUntil_repeats_marker (this : SerialPort) (c : Nat) (more : JSString)
    (pre post : List Nat) (hbuf : this.serialBuffer = pre ++ c :: post) (hpre : c ∉ pre) :
    (this.readBytesUntil (c :: more)).2.serialBuffer.head? = some c ∧
    ∀ n : Nat,
      ((fun s : SerialPort => (s.readBytesUntil (c :: more)).2)^[n]
          (this.readBytesUntil (c :: more)).2).readBytesUntil (c :: more)
        = (Ret.value [c], (this.readBytesUntil (c :: more)).2) := by
  have hafter := readBytesUntil_session_after this c more pre post hbuf hpre
  have hfix : ({ this with serialBuffer := c :: post }).readBytesUntil (c :: more)
      = (Ret.value [c], { this with serialBuffer := c :: post }) := by
    have h2 := readBytesUntil_session_after { this with serialBuffer := c :: post } c more
      [] post rfl (by simp)
    have h1 : (({ this with serialBuffer := c :: post }).readBytesUntil (c :: more)).1
        = Ret.value [c] := by
      unfold SerialPort.readBytesUntil
      simp [charCodeAt, arrayIndexOf, slice, sliceIndex]
    exact Prod.ext h1 h2
  rw [hafter]
  refine ⟨rfl, ?_⟩
  intro n
  have hiter : ((fun s : SerialPort => (s.readBytesUntil (c :: more)).2)^[n]
      { this with serialBuffer := c :: post }) = { this with serialBuffer := c :: post } := by
    induction n with
    | zero => rfl
    | succ k ih =>
      rw [Function.iterate_succ_apply', ih, hfix]
  rw [hiter, hfix]

theorem readBytesUntil_repeats_marker_witness :
    ((fun s : SerialPort => (s.readBytesUntil (10 :: [])).2)^[3]
        (({ SerialPort.new .undefined .undefined with
            serialBuffer := [65, 66] ++ 10 :: [67, 68] }).readBytesUntil
          (10 :: [])).2).readBytesUntil (10 :: [])
      = (Ret.value [10],
         (({ SerialPort.new .undefined .undefined with
            serialBuffer := [65, 66] ++ 10 :: [67, 68] }).readBytesUntil (10 :: [])).2) :=
  (readBytesUntil_repeats_marker
    { SerialPort.new .undefined .undefined with serialBuffer := [65, 66] ++ 10 :: [67, 68] }
    10 [] [65, 66] [67, 68] rfl (by decide)).2 3

/-! ## The raw-data callback in the read loop -/

theorem readLoopElement_keeps_raw (env : Env)
    (hkeep : ∀ f a s, (env.run f a s).rawDataCallback = s.rawDataCallback)
    (this : SerialPort) (element : Nat) :
    (readLoopElement env this element).1.rawDataCallback = this.rawDataCallback := by
  unfold readLoopElement fire
  dsimp only
  repeat (any_goals split)
  all_goals simp [hkeep]

theorem readLoopElement_raw_events (env : Env)
    (hkeep : ∀ f a s, (env.run f a s).rawDataCallback = s.rawDataCallback)
    (this : SerialPort) (element : Nat) (g : Callback)
    (hraw : this.rawDataCallback = some g) :
    (readLoopElement env this element).2.filter Event.isRawData
      = [Event.callback .rawdata g (.byte element)] := by
  unfold readLoopElement fire
  dsimp only
  cases hd : this.dataCallback with
  | none => simp [hraw, Event.isRawData]
  | some f =>
    by_cases hle : this.serialBuffer.length + 1 ≥ this.bufferSize
    · simp [hle, hkeep, hraw, Event.isRawData]
    · simp [hle, hraw, Event.isRawData]

/-- C23: in the handling of one fulfilled inbound transfer of bytes b1..bN,
with a raw-data callback `g` registered and callbacks that leave the
raw-data slot alone, the invocations from the raw-data slot are exactly
`g(b1)`, ..., `g(bN)`, in arrival order: N invocations, one per byte with
that byte as argument, for every `bufferSize` and with or without a data
callback. -/
theorem rawDataCallback_once_per_byte (env : Env) (this : SerialPort) (data : List Nat)
    (g : Callback)
    (hkeep : ∀ f a s, (env.run f a s).rawDataCallback = s.rawDataCallback)
    (hraw : this.rawDataCallback = some g) :
    (readLoopForEach env this data).2.filter Event.isRawData
      = data.map (fun b => Event.callback .rawdata g (.byte b)) ∧
    ((readLoopForEach env this data).2.filter Event.isRawData).length = data.length := by
  have hmain : (readLoopForEach env this data).2.filter Event.isRawData
      = data.map (fun b => Event.callback .rawdata g (.byte b)) := by
    induction data generalizing this with
    | nil => simp [readLoopForEach]
    | cons e es ih =>
      have h1 := readLoopElement_raw_events env hkeep this e g hraw
      have h2 := ih (readLoopElement env this e).1
        (by rw [readLoopElement_keeps_raw env hkeep, hraw])
      simp only [readLoopForEach, List.filter_append, h1, h2, List.map_cons]
      rfl
  exact ⟨hmain, by rw [hmain, List.length_map]⟩

theorem rawDataCallback_once_per_byte_witness :
    (readLoopForEach envClear
        { SerialPort.new .undefined .undefined with
          bufferSize := 2, dataCallback := some 7, rawDataCallback := some 8 }
        [72, 105, 33]).2.filter Event.isRawData
      = [72, 105, 33].map (fun b => Event.callback .rawdata 8 (.byte b)) :=
  (rawDataCallback_once_per_byte envClear
    { SerialPort.new .undefined .undefined with
      bufferSize := 2, dataCallback := some 7, rawDataCallback := some 8 }
    [72, 105, 33] 8 (fun _ _ _ => rfl) rfl).1

/-! ## The default filter table -/

/-- C24, as stated, fails: the filter table of a session constructed without
explicit IDs has 14 entries, not 13. -/
theorem default_filters_not_thirteen :
    (SerialPort.new .undefined .undefined).filters.length = 14 ∧
    (SerialPort.new .undefined .undefined).filters.length ≠ 13 := by
  refine ⟨by decide, by decide⟩

/-- C24, amended: a session constructed without explicit IDs holds a default
filter table of exactly 14 entries: exactly one vendor-only wildcard (vendor
0x239A, no productId), exactly one entry for the third-party programmer
(vendor 0x1781, product 0x0c9f), and twelve Arduino vendor/product pairs
(vendor 0x2341 with a productId). -/
theorem default_filters_fourteen :
    (SerialPort.new .undefined .undefined).filters = defaultFilters ∧
    defaultFilters.length = 14 ∧
    defaultFilters.filter (fun f => f.productId = none) = [⟨0x239A, none⟩] ∧
    defaultFilters.filter (fun f => f.vendorId = 0x1781) = [⟨0x1781, some 0x0c9f⟩] ∧
    (defaultFilters.filter
      (fun f => f.vendorId = 0x2341 ∧ f.productId ≠ none)).length = 12 ∧
    (defaultFilters.filter
      (fun f => f.vendorId ≠ 0x2341 ∧ f.vendorId ≠ 0x239A ∧ f.vendorId ≠ 0x1781)) = [] := by
  refine ⟨rfl, by decide, by decide, by decide, by decide, by decide⟩

end P5
